import Mathlib

/-!
Shallow embedding of the configuration rule engine of this repository
(condition evaluator, implication resolver, conflict detector, exclusive
group manager, inheritance resolver and validator), together with proofs
about the embedded definitions.

JavaScript runtime values are modelled by the tagged union `JSVal`:
`undefined` and `null` are explicit constructors, numbers are modelled as
rationals (the source only ever manipulates decimal literals and state
scalars; IEEE-754 rounding plays no role in any statement proved here),
and arrays compare by reference, so `strictEq` on two list values is
`false` exactly as `===` on two distinct array objects is.
-/

namespace Gschpoozi

/-! ## Numbers

JavaScript numbers are modelled as (not necessarily normalized) rational
numbers: an integer numerator over a positive natural denominator.  Every
constructor below keeps the denominator positive, and every number the
engine ever builds has a power-of-ten denominator (they all come from
decimal literals).  Equality and order are value comparisons by cross
multiplication, matching `===`, `<` etc. on JavaScript numbers.  The
representation is deliberately normalization-free so that every operation
reduces inside the kernel. -/

/-- A number: `num / den` with `den` positive by construction. -/
structure Q where
  num : Int
  den : Nat
deriving DecidableEq, Repr

instance (n : Nat) : OfNat Q n := ⟨⟨n, 1⟩⟩

instance : OfScientific Q :=
  ⟨fun m b e => if b then ⟨(m : Int), 10 ^ e⟩ else ⟨(m : Int) * (10 ^ e : Nat), 1⟩⟩

/-- Numeric value equality (`a/b = c/d` iff `ad = cb`). -/
def qEq (a b : Q) : Bool := a.num * (b.den : Int) == b.num * (a.den : Int)

/-- Numeric strict order. -/
def qLt (a b : Q) : Bool := decide (a.num * (b.den : Int) < b.num * (a.den : Int))

/-- Numeric non-strict order. -/
def qLe (a b : Q) : Bool := decide (a.num * (b.den : Int) ≤ b.num * (a.den : Int))

/-- Negation. -/
def qNeg (a : Q) : Q := ⟨-a.num, a.den⟩

/-- Addition. -/
def qAdd (a b : Q) : Q := ⟨a.num * b.den + b.num * a.den, a.den * b.den⟩

/-- Multiplication. -/
def qMul (a b : Q) : Q := ⟨a.num * b.num, a.den * b.den⟩

/-- Division (denominators stay nonnegative; division by zero produces a
zero denominator and is never reached by the engine). -/
def qDiv (a b : Q) : Q :=
  if b.num < 0 then ⟨-(a.num * b.den), a.den * (-b.num).toNat⟩
  else ⟨a.num * b.den, a.den * b.num.toNat⟩

/-- The floor of a number. -/
def qFloor (a : Q) : Int := Int.fdiv a.num a.den

/-- A natural number as a `Q`. -/
def natToQ (n : Nat) : Q := ⟨n, 1⟩

/-- Digit characters to their numeric value. -/
def digitsToNat (ds : List Char) : Nat :=
  ds.foldl (fun a c => a * 10 + (c.toNat - 48)) 0

/-- The decimal digits of a natural number, least significant first
(fuelled; `natToStr` supplies `n + 1`, always enough since a digit is
produced per division by ten). -/
def natDigitsAux : Nat → Nat → List Char
  | 0, _ => []
  | _ + 1, 0 => []
  | f + 1, n => Char.ofNat (48 + n % 10) :: natDigitsAux f (n / 10)

/-- Decimal rendering of a natural number. -/
def natToStr (n : Nat) : String :=
  if n = 0 then "0" else String.mk (natDigitsAux (n + 1) n).reverse

/-- Decimal rendering of an integer. -/
def intToStr (i : Int) : String :=
  match i with
  | .ofNat n => natToStr n
  | .negSucc n => "-" ++ natToStr (n + 1)

/-- `String.prototype.trim`: strip leading and trailing whitespace.
(The standard library's `String.trim` is not used because it does not
reduce inside the kernel.) -/
def strTrim (s : String) : String :=
  String.mk ((s.data.dropWhile Char.isWhitespace).reverse.dropWhile Char.isWhitespace).reverse

/-- `String.prototype.toLowerCase` on the ASCII identifiers the tokenizer
produces. -/
def strToLower (s : String) : String := String.mk (s.data.map Char.toLower)

/-- `condition.split(' and ')`: split on every (left-to-right,
non-overlapping) occurrence of the five-character separator. -/
def splitOnAndAux : List Char → List Char → List (List Char)
  | ' ' :: 'a' :: 'n' :: 'd' :: ' ' :: rest, acc => acc.reverse :: splitOnAndAux rest []
  | c :: rest, acc => splitOnAndAux rest (c :: acc)
  | [], acc => [acc.reverse]

/-- `condition.split(' and ')` as strings. -/
def splitOnAnd (s : String) : List String := (splitOnAndAux s.data []).map String.mk

/-- A JavaScript runtime value as used by the wizard state and the
condition evaluator: `undefined`, `null`, booleans, numbers (as `Q`),
strings, and arrays (produced by bracketed list literals). -/
inductive JSVal where
  | undef : JSVal
  | null : JSVal
  | bool (b : Bool) : JSVal
  | num (q : Q) : JSVal
  | str (s : String) : JSVal
  | list (xs : List JSVal) : JSVal
deriving Repr

/-- The wizard state: `WizardState = Record<string, any>`, a flat map from
dotted keys to values; a key that is missing reads as `undefined`. -/
def WizardState : Type := String → JSVal

/-- JavaScript truthiness: `undefined`, `null`, `false`, `0`, and the empty
string are falsy; everything else (including any array) is truthy. -/
def truthy : JSVal → Bool
  | .undef => false
  | .null => false
  | .bool b => b
  | .num q => ! qEq q 0
  | .str s => s != ""
  | .list _ => true

/-- JavaScript strict equality `===`.  Two array values are never strictly
equal: every array literal in a condition is a fresh object, so `===` on
arrays is reference equality and yields `false` here. -/
def strictEq : JSVal → JSVal → Bool
  | .undef, .undef => true
  | .null, .null => true
  | .bool a, .bool b => a == b
  | .num a, .num b => qEq a b
  | .str a, .str b => a == b
  | _, _ => false

/-- String form of a number (`String(n)` / `Array.prototype.toString`
elements): integral values print with no fractional part; other values
(whose denominators are always powers of ten here) print their fraction
digits with trailing zeros stripped. -/
def numToStr (q : Q) : String :=
  let sign := if q.num < 0 then "-" else ""
  let n := q.num.natAbs
  let ip := n / q.den
  let fp := n % q.den
  if fp = 0 then sign ++ natToStr ip
  else
    let width := (natToStr q.den).length - 1
    let fracDigits := natToStr fp
    let padded := String.mk (List.replicate (width - fracDigits.length) '0') ++ fracDigits
    let stripped := String.mk (padded.data.reverse.dropWhile (· = '0')).reverse
    sign ++ natToStr ip ++ "." ++ stripped

mutual

/-- Element rendering of `Array.prototype.toString`: `undefined` and
`null` render as the empty string, nested arrays recurse. -/
def jsValToStrElem : JSVal → String
  | .undef => ""
  | .null => ""
  | .bool b => if b then "true" else "false"
  | .num q => numToStr q
  | .str s => s
  | .list xs => jsArrJoin xs

/-- `Array.prototype.toString`: the elements joined with commas. -/
def jsArrJoin : List JSVal → String
  | [] => ""
  | [x] => jsValToStrElem x
  | x :: xs => jsValToStrElem x ++ "," ++ jsArrJoin xs

end

/-- `ToPrimitive`: arrays become their joined string; every other value is
already primitive. -/
def toPrim : JSVal → JSVal
  | .list xs => .str (jsArrJoin xs)
  | v => v

/-- `Number(string)`: leading/trailing whitespace is ignored, the empty
string is `0`, otherwise an optionally signed decimal numeral; anything
else is `NaN` (`none`). -/
def strToNum (s : String) : Option Q :=
  let t := (s.data.dropWhile Char.isWhitespace).reverse.dropWhile Char.isWhitespace |>.reverse
  if t.isEmpty then some 0
  else
    let (neg, t2) : Bool × List Char :=
      match t with
      | '-' :: r => (true, r)
      | '+' :: r => (false, r)
      | r => (false, r)
    let intPart := t2.takeWhile Char.isDigit
    let rest := t2.dropWhile Char.isDigit
    let apply : Q → Option Q := fun q => some (if neg then qNeg q else q)
    match rest with
    | [] =>
      if intPart.isEmpty then none
      else apply ⟨digitsToNat intPart, 1⟩
    | '.' :: fr =>
      if fr.all Char.isDigit ∧ ¬ (intPart.isEmpty ∧ fr.isEmpty) then
        apply ⟨digitsToNat intPart * 10 ^ fr.length + digitsToNat fr, 10 ^ fr.length⟩
      else none
    | _ => none

/-- `ToNumber` on a primitive value (`none` is `NaN`). -/
def primToNum : JSVal → Option Q
  | .undef => none
  | .null => some 0
  | .bool b => some (if b then 1 else 0)
  | .num q => some q
  | .str s => strToNum s
  | .list xs => strToNum (jsArrJoin xs)

/-- `ToNumber` (as in `Number(v)` and the numeric branch of relational
comparison): `ToPrimitive` followed by the primitive conversion. -/
def toNumber (v : JSVal) : Option Q := primToNum (toPrim v)

/-- JavaScript `<`: if both primitives are strings, compare as strings;
otherwise compare as numbers, with `NaN` making the result `false`. -/
def jsLt (a b : JSVal) : Bool :=
  match toPrim a, toPrim b with
  | .str x, .str y => decide (x < y)
  | pa, pb =>
    match primToNum pa, primToNum pb with
    | some x, some y => qLt x y
    | _, _ => false

/-- JavaScript `<=` (false whenever a `NaN` is involved). -/
def jsLe (a b : JSVal) : Bool :=
  match toPrim a, toPrim b with
  | .str x, .str y => decide (x ≤ y)
  | pa, pb =>
    match primToNum pa, primToNum pb with
    | some x, some y => qLe x y
    | _, _ => false

/-- JavaScript `>`. -/
def jsGt (a b : JSVal) : Bool := jsLt b a

/-- JavaScript `>=`. -/
def jsGe (a b : JSVal) : Bool := jsLe b a

/-- JavaScript `a || b` as the parser computes it: the left value if it is
truthy, otherwise the right value. -/
def jsOr (a b : JSVal) : JSVal := if truthy a then a else b

/-- JavaScript `a && b`: the right value if the left is truthy, otherwise
the left value. -/
def jsAnd (a b : JSVal) : JSVal := if truthy a then b else a

/-- JavaScript `!a`: always a boolean. -/
def jsNot (a : JSVal) : JSVal := .bool (! truthy a)

/-- `v === undefined`. -/
def isUndef : JSVal → Bool
  | .undef => true
  | _ => false

/-- `v`'s runtime type is `number` (`typeof v === 'number'`). -/
def isNum : JSVal → Bool
  | .num _ => true
  | _ => false

/-! ## Tokenizer (`tokenize` in `conditionEngine.ts`) -/

/-- The single-quote character. -/
def squote : Char := Char.ofNat 39

/-- The double-quote character. -/
def dquote : Char := Char.ofNat 34

/-- A token of the condition language.  The token kinds mirror `TokenType`
in the source; operator tokens carry the operator text. -/
inductive Token where
  | ident (s : String) : Token
  | strLit (s : String) : Token
  | numLit (q : Q) : Token
  | boolLit (b : Bool) : Token
  | opTok (s : String) : Token
  | lparen : Token
  | rparen : Token
  | lbracket : Token
  | rbracket : Token
  | comma : Token
  | andTok : Token
  | orTok : Token
  | notTok : Token
  | inTok : Token
  | eof : Token
deriving DecidableEq, Repr

/-- A character the number scanner keeps consuming (`/[0-9.]/`). -/
def isNumCh (c : Char) : Bool := c.isDigit || c == '.'

/-- A character that may start an identifier (`/[a-zA-Z_]/`). -/
def isIdentStart (c : Char) : Bool := c.isAlpha || c == '_'

/-- A character inside an identifier (`/[a-zA-Z0-9_.]/`). -/
def isIdentCh (c : Char) : Bool := c.isAlphanum || c == '_' || c == '.'

/-- `parseFloat` on the strings the number scanner produces: an optional
leading minus, then digits, then optionally a dot and fractional digits;
any further characters (e.g. a second dot) are ignored, exactly as
`parseFloat` stops at the first character that cannot extend the literal. -/
def parseFloatQ (s : String) : Q :=
  let (neg, cs) : Bool × List Char :=
    match s.data with
    | '-' :: r => (true, r)
    | r => (false, r)
  let intPart := cs.takeWhile Char.isDigit
  let rest := cs.dropWhile Char.isDigit
  let mag : Q :=
    match rest with
    | '.' :: fr =>
      let frDigits := fr.takeWhile Char.isDigit
      ⟨digitsToNat intPart * 10 ^ frDigits.length + digitsToNat frDigits, 10 ^ frDigits.length⟩
    | _ => ⟨digitsToNat intPart, 1⟩
  if neg then qNeg mag else mag

/-- The keyword table: `and/or/not/in` and the four boolean spellings.  In
the source the table is consulted with the identifier and with its
lowercase form (`keywords[id] || keywords[lower]`); since every table key
lowercases to one of `and, or, not, in, true, false`, the net effect is a
lookup of the lowercased identifier, with the boolean token's value being
`lower === 'true'`. -/
def keywordTok (id : String) : Option Token :=
  let lower := strToLower id
  if lower == "and" then some .andTok
  else if lower == "or" then some .orTok
  else if lower == "not" then some .notTok
  else if lower == "in" then some .inTok
  else if lower == "true" then some (.boolLit true)
  else if lower == "false" then some (.boolLit false)
  else none

/-- One step of the tokenizer loop: given the current character and the
remaining characters, the token this iteration pushes (`none` for skipped
whitespace or an unrecognized character) and the characters left for the
next iteration.  Branch order follows the source: whitespace, string
literals, numbers, operators (two-character operators first, in the order
`== != <= >= < > =`), parentheses, brackets, comma, identifiers/keywords,
and finally silently skipping any other character.  An unterminated
string literal consumes the rest of the input. -/
def scanTok (c : Char) (rest : List Char) : Option Token × List Char :=
  if c.isWhitespace then (none, rest)
  else if c == dquote || c == squote then
    (some (.strLit (String.mk (rest.takeWhile (· ≠ c)))), (rest.dropWhile (· ≠ c)).drop 1)
  else if c.isDigit || (c == '-' && ((rest.head?.map Char.isDigit).getD false)) then
    if c == '-' then
      (some (.numLit (parseFloatQ (String.mk ('-' :: rest.takeWhile isNumCh)))),
       rest.dropWhile isNumCh)
    else
      (some (.numLit (parseFloatQ (String.mk (c :: rest.takeWhile isNumCh)))),
       rest.dropWhile isNumCh)
  else if c == '=' && rest.head? == some '=' then (some (.opTok "=="), rest.drop 1)
  else if c == '!' && rest.head? == some '=' then (some (.opTok "!="), rest.drop 1)
  else if c == '<' && rest.head? == some '=' then (some (.opTok "<="), rest.drop 1)
  else if c == '>' && rest.head? == some '=' then (some (.opTok ">="), rest.drop 1)
  else if c == '<' then (some (.opTok "<"), rest)
  else if c == '>' then (some (.opTok ">"), rest)
  else if c == '=' then (some (.opTok "="), rest)
  else if c == '(' then (some .lparen, rest)
  else if c == ')' then (some .rparen, rest)
  else if c == '[' then (some .lbracket, rest)
  else if c == ']' then (some .rbracket, rest)
  else if c == ',' then (some .comma, rest)
  else if isIdentStart c then
    (some (match keywordTok (String.mk (c :: rest.takeWhile isIdentCh)) with
           | some t => t
           | none => .ident (String.mk (c :: rest.takeWhile isIdentCh))),
     rest.dropWhile isIdentCh)
  else (none, rest)

/-- The tokenizer loop: each iteration applies `scanTok` to the current
character.  Every step consumes at least one character; the recursion is
fuelled so that the definition reduces computationally, and
`tokenizeAux_total` shows the fuel supplied by `tokenize` (one unit per
character plus one) is never exhausted, so the `none` case is
unreachable. -/
def tokenizeAux : Nat → List Char → Option (List Token)
  | 0, _ => none
  | _ + 1, [] => some [.eof]
  | f + 1, c :: rest =>
    match scanTok c rest with
    | (tok?, rest2) =>
      (tokenizeAux f rest2).map (fun ts =>
        match tok? with
        | some t => t :: ts
        | none => ts)

/-- `tokenize`: scan the whole condition string and append the `EOF`
token.  A `none` result means the fuel ran out, which `tokenize_total`
rules out. -/
def tokenize (condition : String) : Option (List Token) :=
  tokenizeAux (condition.data.length + 1) condition.data

/-! ## Parser (`ConditionParser` in `conditionEngine.ts`)

The source parser is a recursive-descent parser over the token array that
evaluates while it parses (it holds the state and returns runtime values).
It is embedded here as a family of functions from the remaining token list
to `Option (value × remaining tokens)`, threaded through a fuel counter
that decreases on every call; `parse_fuel_sufficient` below shows that the
fuel supplied by `evalTokens` is never exhausted, so the `none` case is
unreachable and the embedding computes exactly what the source computes.
The parser's control flow branches only on token kinds, never on runtime
values, mirroring the source.  `parsePrimary`'s default case advances past
the unrecognized token (including `EOF`) and yields `undefined`; an
exhausted token list behaves like the source's out-of-range `current()`,
which also yields the `EOF` sentinel. -/

/-- The parser's control is split into nine production modes, one per
method of the source class (`parseOr`/`parseAnd` each contribute their
entry and their `while`-loop). -/
inductive PMode where
  | orM : PMode
  | orLoopM : PMode
  | andM : PMode
  | andLoopM : PMode
  | notM : PMode
  | cmpM : PMode
  | arrM : PMode
  | arrLoopM : PMode
  | primM : PMode
deriving DecidableEq, Repr

/-- The recursive-descent parser, one function per the nine modes (merged
into a single structural recursion on the fuel so that the definition
reduces computationally).  The accumulator `acc` carries the left value
inside the `or`/`and` loops and the collected items (as a `.list`) inside
the array loop; it is ignored by the other modes.  `parseArray` always
returns a `.list`; the comparison modes match on that shape exactly where
the source checks `Array.isArray(right)`, with the source's non-array
fallbacks in the impossible branch. -/
def parseStep (st : WizardState) : PMode → JSVal → Nat → List Token → Option (JSVal × List Token)
  | _, _, 0, _ => none
  | .orM, _, f + 1, ts => do
    let (l, ts1) ← parseStep st .andM .undef f ts
    parseStep st .orLoopM l f ts1
  | .orLoopM, left, f + 1, ts =>
    match ts with
    | .orTok :: rest => do
      let (r, ts1) ← parseStep st .andM .undef f rest
      parseStep st .orLoopM (jsOr left r) f ts1
    | _ => some (left, ts)
  | .andM, _, f + 1, ts => do
    let (l, ts1) ← parseStep st .notM .undef f ts
    parseStep st .andLoopM l f ts1
  | .andLoopM, left, f + 1, ts =>
    match ts with
    | .andTok :: rest => do
      let (r, ts1) ← parseStep st .notM .undef f rest
      parseStep st .andLoopM (jsAnd left r) f ts1
    | _ => some (left, ts)
  | .notM, _, f + 1, ts =>
    match ts with
    | .notTok :: rest => do
      let (v, ts1) ← parseStep st .notM .undef f rest
      some (jsNot v, ts1)
    | _ => parseStep st .cmpM .undef f ts
  | .cmpM, _, f + 1, ts => do
    let (left, ts1) ← parseStep st .primM .undef f ts
    match ts1 with
    | .inTok :: rest => do
      let (r, ts2) ← parseStep st .arrM .undef f rest
      match r with
      | .list xs => some (.bool (xs.any (fun x => strictEq x left)), ts2)
      | _ => some (.bool false, ts2)
    | .notTok :: .inTok :: rest => do
      let (r, ts2) ← parseStep st .arrM .undef f rest
      match r with
      | .list xs => some (.bool (! xs.any (fun x => strictEq x left)), ts2)
      | _ => some (.bool true, ts2)
    | .opTok op :: rest => do
      let (right, ts2) ← parseStep st .primM .undef f rest
      let b : Bool :=
        if op == "==" || op == "=" then strictEq left right
        else if op == "!=" then ! strictEq left right
        else if op == "<" then jsLt left right
        else if op == "<=" then jsLe left right
        else if op == ">" then jsGt left right
        else if op == ">=" then jsGe left right
        else false
      some (.bool b, ts2)
    | _ => some (left, ts1)
  | .arrM, _, f + 1, ts =>
    match ts with
    | .lbracket :: rest => parseStep st .arrLoopM (.list []) f rest
    | _ => some (.list [], ts)
  | .arrLoopM, acc, f + 1, ts =>
    let items : List JSVal :=
      match acc with
      | .list xs => xs
      | _ => []
    match ts with
    | [] => some (.list items, ts)
    | .eof :: _ => some (.list items, ts)
    | .rbracket :: rest => some (.list items, rest)
    | _ => do
      let (v, ts1) ← parseStep st .primM .undef f ts
      let ts2 := match ts1 with
        | .comma :: r => r
        | _ => ts1
      parseStep st .arrLoopM (.list (items ++ [v])) f ts2
  | .primM, _, f + 1, ts =>
    match ts with
    | .strLit s :: rest => some (.str s, rest)
    | .numLit q :: rest => some (.num q, rest)
    | .boolLit b :: rest => some (.bool b, rest)
    | .ident k :: rest => some (st k, rest)
    | .lparen :: rest => do
      let (v, ts1) ← parseStep st .orM .undef f rest
      let ts2 := match ts1 with
        | .rparen :: r => r
        | _ => ts1
      some (v, ts2)
    | .lbracket :: _ => parseStep st .arrM .undef f ts
    | _ :: rest => some (.undef, rest)
    | [] => some (.undef, [])

/-- `parseOr`, the parser's entry production. -/
def parseOr (st : WizardState) (f : Nat) (ts : List Token) : Option (JSVal × List Token) :=
  parseStep st .orM .undef f ts

/-- The fuel budget each parser mode needs beyond eight units per
remaining token (see `parseStep_total`). -/
def modeCost : PMode → Nat
  | .orM => 8
  | .orLoopM => 7
  | .andM => 6
  | .andLoopM => 5
  | .notM => 4
  | .cmpM => 3
  | .primM => 2
  | .arrM => 1
  | .arrLoopM => 3

/-- The situations in which a parser mode is guaranteed to consume at
least one token: a primary on a nonempty list, and an array whose list
starts with an opening bracket. -/
def strictNeeded : PMode → List Token → Prop
  | .primM, ts => ts ≠ []
  | .arrM, .lbracket :: _ => True
  | _, _ => False

/-- The fuel supplied to the parser; `parse_fuel_sufficient` shows it is
enough for any token list. -/
def condFuel (ts : List Token) : Nat := 8 * ts.length + 8

/-- `parser.parse()`: run `parseOr` on the token list and coerce the
resulting value to a boolean (`Boolean(result)`); trailing unconsumed
tokens are ignored.  `none` means the fuel ran out, which never happens. -/
def evalTokens (st : WizardState) (ts : List Token) : Option Bool :=
  (parseOr st (condFuel ts) ts).map (fun p => truthy p.1)

/-- `evaluateCondition` (`conditionEngine.ts`): an absent, empty, or
blank condition is `true`; otherwise the condition is tokenized and
parsed.  The source wraps the parse in `try/catch` with `false` on
exception; the embedding's only abnormal outcome is fuel exhaustion, which
is likewise mapped to `false` (and proved unreachable). -/
def evaluateCondition (condition : Option String) (st : WizardState) : Bool :=
  match condition with
  | none => true
  | some c =>
    if strTrim c == "" then true
    else
      match tokenize c with
      | some ts =>
        match evalTokens st ts with
        | some b => b
        | none => false
      | none => false

/-! ## Plain objects used as string-keyed maps

`Record<string, Value>` objects built up by `obj[key] = value` assignments
are modelled as association lists: an assignment to a fresh key appends,
an assignment to an existing key overwrites in place (JavaScript objects
keep the original insertion position), and `key in obj` is key membership
(an explicit `undefined` value still counts as present, which is how the
DELETE marker is represented). -/

/-- `key in obj`. -/
def recHas : List (String × JSVal) → String → Bool
  | [], _ => false
  | p :: r, k => p.1 == k || recHas r k

/-- `obj[key]` as an `Option` (`none` when the key is absent). -/
def recFind : List (String × JSVal) → String → Option JSVal
  | [], _ => none
  | p :: r, k => if p.1 = k then some p.2 else recFind r k

/-- `obj[key] = v`. -/
def recSet (r : List (String × JSVal)) (k : String) (v : JSVal) : List (String × JSVal) :=
  if recHas r k then r.map (fun p => if p.1 = k then (p.1, v) else p)
  else r ++ [(k, v)]

/-! ## The validator's own condition evaluator
(`evaluateSimpleCondition` in `validator.ts`)

The source matches the condition against two regular expressions before
falling back to an `and`-split and a truthy lookup.  The two regexes are
modelled by explicit scans with the same (lazy/backtracking) semantics:

* `geMatch` models `/^(.+?)\s*>=\s*(\d+)$/`: the shortest nonempty prefix
  whose remainder is optional whitespace, `>=`, optional whitespace and a
  nonempty digit string reaching the end.
* `eqMatch` models `/^(.+?)\s*==\s*['"]?(.+?)['"]?$/`: the shortest
  nonempty prefix whose remainder is optional whitespace, `==`, optional
  whitespace, then an optionally quoted value; the lazy value group plus
  the trailing optional quote make the value the remainder minus one
  surrounding quote on each side when present. -/

/-- A quote character (`['"]`). -/
def isQuoteCh (c : Char) : Bool := c == squote || c == dquote

/-- Digit characters as a number. -/
def digitsToQ (ds : List Char) : Q := ⟨digitsToNat ds, 1⟩

/-- Does the remainder after the field match `\s*>=\s*(\d+)$`?  If so,
return the numeric value of the digits. -/
def matchGeRest (cs : List Char) : Option Q :=
  let cs1 := cs.dropWhile Char.isWhitespace
  match cs1 with
  | '>' :: '=' :: cs2 =>
    let cs3 := cs2.dropWhile Char.isWhitespace
    if ¬ cs3.isEmpty ∧ cs3.all Char.isDigit then some (digitsToQ cs3) else none
  | _ => none

/-- Scan for the shortest nonempty field prefix accepted by
`matchGeRest`. -/
def geScan : List Char → List Char → Option (String × Q)
  | _, [] => none
  | pre, c :: rest =>
    match matchGeRest rest with
    | some q => some (String.mk (pre ++ [c]), q)
    | none => geScan (pre ++ [c]) rest

/-- The `geMatch` of the source: field text and right-hand-side number. -/
def geMatch (s : String) : Option (String × Q) := geScan [] s.data

/-- The lazy value group with its trailing optional quote: the shortest
nonempty prefix of `r` whose remainder is empty or a single quote. -/
def eqCore (r : List Char) : Option (List Char) :=
  if r.isEmpty then none
  else if 2 ≤ r.length ∧ ((r.getLast?.map isQuoteCh).getD false) then some r.dropLast
  else some r

/-- The optionally quoted value: the leading optional quote is consumed
greedily, backtracking when nothing would remain for the value group. -/
def eqValue (cs : List Char) : Option (List Char) :=
  match cs with
  | [] => none
  | q :: rest =>
    if isQuoteCh q then
      match eqCore rest with
      | some v => some v
      | none => eqCore cs
    else eqCore cs

/-- Does the remainder after the field match `\s*==\s*['"]?(.+?)['"]?$`?
If so, return the value text. -/
def matchEqRest (cs : List Char) : Option String :=
  let cs1 := cs.dropWhile Char.isWhitespace
  match cs1 with
  | '=' :: '=' :: cs2 =>
    (eqValue (cs2.dropWhile Char.isWhitespace)).map String.mk
  | _ => none

/-- Scan for the shortest nonempty field prefix accepted by
`matchEqRest`. -/
def eqScan : List Char → List Char → Option (String × String)
  | _, [] => none
  | pre, c :: rest =>
    match matchEqRest rest with
    | some v => some (String.mk (pre ++ [c]), v)
    | none => eqScan (pre ++ [c]) rest

/-- The `eqMatch` of the source: field text and value text. -/
def eqMatch (s : String) : Option (String × String) := eqScan [] s.data

/-- One recursion-free step of `evaluateSimpleCondition`: the parts this
is applied to come from `splitOnAnd` and therefore contain no
further `" and "` separator, so the source's recursive call on them never
takes the `and` branch and is embedded by this non-recursive function. -/
def evalSimpleAtom (c : String) (st : WizardState) : Bool :=
  if c == "" then true
  else
    match geMatch c with
    | some (field, q) =>
      match toNumber (st (strTrim field)) with
      | some x => qLe q x
      | none => false
    | none =>
      match eqMatch c with
      | some (field, v) => strictEq (st (strTrim field)) (.str (strTrim v))
      | none => truthy (st (strTrim c))

/-- `evaluateSimpleCondition` (`validator.ts`): empty condition is `true`;
then the `>=` regex, then the `==` regex, then the `' and '` split (each
part re-evaluated after trimming), and finally a bare truthy lookup.
Note the `==` regex is tried *before* the `and` split, so a compound
condition containing `==` is consumed whole by the regex. -/
def evaluateSimpleCondition (c : String) (st : WizardState) : Bool :=
  if c == "" then true
  else
    match geMatch c with
    | some (field, q) =>
      match toNumber (st (strTrim field)) with
      | some x => qLe q x
      | none => false
    | none =>
      match eqMatch c with
      | some (field, v) => strictEq (st (strTrim field)) (.str (strTrim v))
      | none =>
        if 1 < (splitOnAnd c).length then
          (splitOnAnd c).all (fun part => evalSimpleAtom (strTrim part) st)
        else truthy (st (strTrim c))

/-! ## Exclusive groups (`exclusiveGroups.ts`) -/

/-- An option within an exclusive group. -/
structure ExclusiveOption where
  value : String
  label : String
  description : Option String := none
  impliedValues : Option (List (String × JSVal)) := none
  clearValues : Option (List String) := none
  condition : Option String := none

/-- An exclusive group definition. -/
structure ExclusiveGroup where
  id : String
  name : String
  description : String
  stateKey : String
  options : List ExclusiveOption
  condition : Option String := none
  required : Bool := false

/-- The built-in exclusive groups (`EXCLUSIVE_GROUPS`). -/
def EXCLUSIVE_GROUPS : List ExclusiveGroup := [
  { id := "kinematics", name := "Kinematics Type",
    description := "The motion system of your printer",
    stateKey := "printer.kinematics", required := true,
    options := [
      { value := "cartesian", label := "Cartesian",
        description := some ("Standard bed-slinger or moving gantry (Ender 3, Prusa MK3)") },
      { value := "corexy", label := "CoreXY",
        description := some ("Fixed bed with CoreXY gantry (Voron, RatRig)") },
      { value := "corexy-awd", label := "CoreXY AWD",
        description := some ("CoreXY with All Wheel Drive (4 XY motors)"),
        impliedValues := some [("printer.awd_enabled", .bool true)] },
      { value := "hybrid_corexy", label := "Hybrid CoreXY",
        description := some ("CoreXY variant with AWD (VzBot style)"),
        impliedValues := some [("printer.awd_enabled", .bool true)] },
      { value := "corexz", label := "CoreXZ",
        description := some ("CoreXZ motion system") },
      { value := "delta", label := "Delta",
        description := some ("Delta printer (Kossel, Anycubic Predator)") }] },
  { id := "probe_type", name := "Probe Type",
    description := "Bed leveling probe type",
    stateKey := "probe.probe_type",
    options := [
      { value := "none", label := "None / Manual",
        description := some ("No probe, manual bed leveling only"),
        clearValues := some ["probe.x_offset", "probe.y_offset", "probe.z_offset"] },
      { value := "bltouch", label := "BLTouch / 3DTouch",
        description := some ("Servo-actuated probe"),
        impliedValues := some [("probe.needs_deploy", .bool true)] },
      { value := "inductive", label := "Inductive Probe",
        description := some ("Proximity sensor (PINDA, SuperPINDA)") },
      { value := "tap", label := "Voron Tap",
        description := some ("Nozzle-based probing"),
        impliedValues := some [("probe.x_offset", .num 0), ("probe.y_offset", .num 0)] },
      { value := "beacon", label := "Beacon",
        description := some ("Eddy current probe with contact mode") },
      { value := "cartographer", label := "Cartographer",
        description := some ("Eddy current probe with touch mode") },
      { value := "klicky", label := "Klicky / Euclid",
        description := some ("Dockable probe"),
        impliedValues := some [("probe.needs_deploy", .bool true)] }] },
  { id := "leveling_type", name := "Leveling Type",
    description := "Automatic bed leveling method",
    stateKey := "leveling.type",
    options := [
      { value := "none", label := "None",
        description := some ("No automatic leveling") },
      { value := "bed_mesh", label := "Bed Mesh Only",
        description := some ("Software compensation for bed irregularities"),
        condition := some ("probe.probe_type != \x22none\x22") },
      { value := "z_tilt", label := "Z Tilt Adjust",
        description := some ("Physical Z motor alignment (2-3 motors)"),
        condition := some ("z_config.motor_count >= 2 and z_config.motor_count <= 3") },
      { value := "quad_gantry_level", label := "Quad Gantry Level",
        description := some ("Gantry leveling for 4 Z motors"),
        condition := some ("z_config.motor_count == 4") }] },
  { id := "x_endstop_type", name := "X Endstop Type",
    description := "How X axis homes",
    stateKey := "homing.x_endstop_type",
    options := [
      { value := "physical", label := "Physical Switch",
        description := some ("Mechanical or optical endstop") },
      { value := "sensorless", label := "Sensorless (StallGuard)",
        description := some ("TMC driver stall detection"),
        condition := some ("stepper_x.driver_type in ['tmc2209', 'tmc2226', 'tmc2240', 'tmc5160', 'tmc2130']") }] },
  { id := "y_endstop_type", name := "Y Endstop Type",
    description := "How Y axis homes",
    stateKey := "homing.y_endstop_type",
    options := [
      { value := "physical", label := "Physical Switch",
        description := some ("Mechanical or optical endstop") },
      { value := "sensorless", label := "Sensorless (StallGuard)",
        description := some ("TMC driver stall detection"),
        condition := some ("stepper_y.driver_type in ['tmc2209', 'tmc2226', 'tmc2240', 'tmc5160', 'tmc2130']") }] },
  { id := "z_endstop_type", name := "Z Endstop Type",
    description := "How Z axis homes",
    stateKey := "homing.z_endstop_type",
    options := [
      { value := "physical", label := "Physical Switch",
        description := some ("Mechanical endstop at Z min or max") },
      { value := "probe", label := "Probe",
        description := some ("Use bed probe for Z homing"),
        condition := some ("probe.probe_type != 'none'") }] },
  { id := "tooling_type", name := "Tooling Configuration",
    description := "Single or multi-tool setup",
    stateKey := "tooling.type",
    options := [
      { value := "single", label := "Single Extruder",
        description := some ("Standard single-tool setup") },
      { value := "multi_extruder", label := "Multi-Extruder",
        description := some ("Multiple extruders (T0, T1, etc.)") },
      { value := "mmu", label := "MMU/ERCF",
        description := some ("Multi-material unit (filament switching)") },
      { value := "toolchanger", label := "Toolchanger",
        description := some ("Physical tool changing system") }] },
  { id := "mcu_connection", name := "MCU Connection",
    description := "How the mainboard connects",
    stateKey := "mcu.main.connection_type",
    options := [
      { value := "usb", label := "USB Serial",
        description := some ("Standard USB connection") },
      { value := "can", label := "CAN Bus",
        description := some ("CAN bus connection (requires CAN adapter)") }] }]

/-- `selectOption` (`exclusiveGroups.ts`): the diff produced by choosing
`optionValue` in `group`.  With an unknown value, only the target key is
cleared.  Otherwise: target key, then the chosen option's implied values,
then a DELETE (`undefined`) for each key implied by an option with a
different value unless the key is already in the diff, then a DELETE for
each of the chosen option's `clearValues`. -/
def selectOption (group : ExclusiveGroup) (optionValue : String) : List (String × JSVal) :=
  match group.options.find? (fun o => o.value == optionValue) with
  | none => [(group.stateKey, .undef)]
  | some option =>
    let changes := [(group.stateKey, .str optionValue)]
    let changes :=
      match option.impliedValues with
      | some iv => iv.foldl (fun c kv => recSet c kv.1 kv.2) changes
      | none => changes
    let changes := group.options.foldl (fun c other =>
      if other.value ≠ optionValue then
        match other.impliedValues with
        | some iv => iv.foldl (fun c kv => if recHas c kv.1 then c else recSet c kv.1 .undef) c
        | none => c
      else c) changes
    match option.clearValues with
    | some cv => cv.foldl (fun c k => recSet c k .undef) changes
    | none => changes

/-! ## Conflict detector (`conflicts.ts`, `src/unnamed/part_013`) -/

/-- Severity levels for conflicts. -/
inductive ConflictSeverity where
  | error : ConflictSeverity
  | warning : ConflictSeverity
  | info : ConflictSeverity
deriving DecidableEq, Repr

/-- Categories for grouping conflict rules. -/
inductive ConflictCategory where
  | hardware : ConflictCategory
  | motion : ConflictCategory
  | heating : ConflictCategory
  | probing : ConflictCategory
  | leveling : ConflictCategory
  | homing : ConflictCategory
  | general : ConflictCategory
deriving DecidableEq, Repr

/-- A conflict rule definition. -/
structure ConflictRule where
  id : String
  message : String
  details : Option String := none
  condition : String
  severity : ConflictSeverity
  category : ConflictCategory
  suggestion : Option String := none
  relatedFields : Option (List String) := none

/-- A detected conflict instance: the rule plus a snapshot of its related
fields. -/
structure Conflict where
  rule : ConflictRule
  context : List (String × JSVal)

/-- The `z_tilt_requires_2_or_3_motors` rule, named for use in the
theorems about the conflict detector. -/
def crZTilt : ConflictRule :=
  { id := "z_tilt_requires_2_or_3_motors",
    message := "Z Tilt requires 2 or 3 Z motors",
    details := some ("Z Tilt adjustment works with 2 or 3 Z motors."),
    condition := "leveling.type == 'z_tilt' and (z_config.motor_count < 2 or z_config.motor_count > 3)",
    severity := .error, category := .leveling,
    suggestion := some ("Set Z motor count to 2 or 3, or use QGL for 4 motors."),
    relatedFields := some ["leveling.type", "z_config.motor_count"] }

/-- The `no_kinematics_selected` rule. -/
def crNoKinematics : ConflictRule :=
  { id := "no_kinematics_selected",
    message := "No kinematics type selected",
    condition := "not printer.kinematics",
    severity := .error, category := .general,
    suggestion := some ("Select a kinematics type (CoreXY, Cartesian, etc.)"),
    relatedFields := some ["printer.kinematics"] }

/-- The `no_mainboard_selected` rule. -/
def crNoMainboard : ConflictRule :=
  { id := "no_mainboard_selected",
    message := "No mainboard selected",
    condition := "not mcu.main.board_type",
    severity := .error, category := .hardware,
    suggestion := some ("Select your mainboard type in MCU settings."),
    relatedFields := some ["mcu.main.board_type"] }

/-- The built-in conflict rules (`CONFLICT_RULES`), in declaration
order. -/
def CONFLICT_RULES : List ConflictRule := [
  { id := "qgl_requires_4_motors",
    message := "Quad Gantry Level requires exactly 4 Z motors",
    details := some ("QGL is designed for printers with 4 independent Z motors at each corner of the gantry."),
    condition := "leveling.type == 'quad_gantry_level' and z_config.motor_count != 4",
    severity := .error, category := .leveling,
    suggestion := some ("Set Z motor count to 4, or use Z Tilt for 2-3 motors."),
    relatedFields := some ["leveling.type", "z_config.motor_count"] },
  crZTilt,
  { id := "sensorless_needs_stallguard_x",
    message := "Sensorless X homing requires a TMC driver with StallGuard",
    details := some ("StallGuard is available on TMC2209, TMC2226, TMC2240, TMC5160, and TMC2130."),
    condition := "homing.x_endstop_type == 'sensorless' and stepper_x.driver_type not in ['tmc2209', 'tmc2226', 'tmc2240', 'tmc5160', 'tmc2130']",
    severity := .error, category := .homing,
    suggestion := some ("Use a TMC driver with StallGuard support, or use a physical endstop."),
    relatedFields := some ["homing.x_endstop_type", "stepper_x.driver_type"] },
  { id := "sensorless_needs_stallguard_y",
    message := "Sensorless Y homing requires a TMC driver with StallGuard",
    details := some ("StallGuard is available on TMC2209, TMC2226, TMC2240, TMC5160, and TMC2130."),
    condition := "homing.y_endstop_type == 'sensorless' and stepper_y.driver_type not in ['tmc2209', 'tmc2226', 'tmc2240', 'tmc5160', 'tmc2130']",
    severity := .error, category := .homing,
    suggestion := some ("Use a TMC driver with StallGuard support, or use a physical endstop."),
    relatedFields := some ["homing.y_endstop_type", "stepper_y.driver_type"] },
  { id := "toolboard_extruder_needs_toolboard",
    message := "Extruder set to toolboard but toolboard is not enabled",
    condition := "extruder.motor_location == 'toolboard' and mcu.toolboard.enabled != true",
    severity := .error, category := .hardware,
    suggestion := some ("Enable the toolboard in MCU settings, or set extruder location to mainboard."),
    relatedFields := some ["extruder.motor_location", "mcu.toolboard.enabled"] },
  { id := "toolboard_fan_needs_toolboard",
    message := "Fan set to toolboard but toolboard is not enabled",
    condition := "(fans.part_cooling.location == 'toolboard' or fans.hotend.location == 'toolboard') and mcu.toolboard.enabled != true",
    severity := .error, category := .hardware,
    suggestion := some ("Enable the toolboard in MCU settings, or set fan location to mainboard."),
    relatedFields := some ["fans.part_cooling.location", "fans.hotend.location", "mcu.toolboard.enabled"] },
  { id := "toolboard_probe_needs_toolboard",
    message := "Probe set to toolboard but toolboard is not enabled",
    condition := "probe.location == 'toolboard' and mcu.toolboard.enabled != true",
    severity := .error, category := .probing,
    suggestion := some ("Enable the toolboard in MCU settings, or set probe location to mainboard."),
    relatedFields := some ["probe.location", "mcu.toolboard.enabled"] },
  { id := "awd_needs_corexy",
    message := "AWD mode requires CoreXY-based kinematics",
    condition := "printer.awd_enabled == true and printer.kinematics not in ['corexy', 'corexy-awd', 'hybrid_corexy']",
    severity := .error, category := .motion,
    suggestion := some ("Select CoreXY, CoreXY-AWD, or Hybrid CoreXY kinematics."),
    relatedFields := some ["printer.awd_enabled", "printer.kinematics"] },
  { id := "beacon_needs_i2c_or_can",
    message := "Beacon probe requires I2C or CAN connection",
    details := some ("Beacon probes connect via I2C or CAN bus, not a simple GPIO pin."),
    condition := "probe.probe_type == 'beacon' and probe.connection_type not in ['i2c', 'can']",
    severity := .warning, category := .probing,
    suggestion := some ("Configure Beacon connection type to I2C or CAN."),
    relatedFields := some ["probe.probe_type", "probe.connection_type"] },
  { id := "cartographer_needs_can",
    message := "Cartographer probe typically uses CAN connection",
    condition := "probe.probe_type == 'cartographer' and probe.connection_type != 'can'",
    severity := .warning, category := .probing,
    suggestion := some ("Configure Cartographer connection type to CAN."),
    relatedFields := some ["probe.probe_type", "probe.connection_type"] },
  { id := "high_bed_temp_warning",
    message := "Bed max temperature is set very high",
    details := some ("Max temperatures above 120 C may require special bed heaters and insulation."),
    condition := "heater_bed.max_temp > 120",
    severity := .warning, category := .heating,
    suggestion := some ("Verify your bed heater supports this temperature."),
    relatedFields := some ["heater_bed.max_temp"] },
  { id := "high_hotend_temp_warning",
    message := "Hotend max temperature is set very high",
    details := some ("Max temperatures above 300 C require all-metal hotends and high-temp thermistors."),
    condition := "extruder.max_temp > 300",
    severity := .warning, category := .heating,
    suggestion := some ("Verify your hotend and thermistor support this temperature."),
    relatedFields := some ["extruder.max_temp"] },
  { id := "high_xy_current_warning",
    message := "XY motor current is set high",
    details := some ("Currents above 1.2A may cause motor overheating without active cooling."),
    condition := "stepper_x.run_current > 1.2 or stepper_y.run_current > 1.2",
    severity := .warning, category := .motion,
    suggestion := some ("Ensure motors are rated for this current and have adequate cooling."),
    relatedFields := some ["stepper_x.run_current", "stepper_y.run_current"] },
  crNoKinematics,
  crNoMainboard,
  { id := "mesh_exceeds_bed",
    message := "Bed mesh area may exceed printable area",
    details := some ("Mesh min/max should account for probe offset."),
    condition := "bed_mesh.mesh_max_x > printer.bed_size_x or bed_mesh.mesh_max_y > printer.bed_size_y",
    severity := .warning, category := .probing,
    suggestion := some ("Adjust mesh boundaries to fit within bed size minus probe offsets."),
    relatedFields := some ["bed_mesh.mesh_max_x", "bed_mesh.mesh_max_y", "printer.bed_size_x", "printer.bed_size_y"] }]

/-- `detectConflicts` (`conflicts.ts`): every rule whose condition holds
yields one `Conflict` whose context maps each related field to its current
state value (an absent field is recorded as `undefined`, matching
`context[field] = state[field]`). -/
def detectConflicts (st : WizardState) : List Conflict :=
  CONFLICT_RULES.filterMap (fun rule =>
    if evaluateCondition (some rule.condition) st then
      some { rule := rule,
             context :=
               match rule.relatedFields with
               | some fs => fs.foldl (fun c f => recSet c f (st f)) []
               | none => [] }
    else none)

/-- The severity test `c.rule.severity === 'error'` used by the validator
and the summary helpers. -/
def isErrorConflict (c : Conflict) : Bool :=
  match c.rule.severity with
  | .error => true
  | _ => false

/-! ## Validator (`validator.ts`) -/

/-- `isEmpty`: `undefined`, `null`, or the empty string. -/
def isEmpty : JSVal → Bool
  | .undef => true
  | .null => true
  | .str s => s == ""
  | _ => false

/-- `String(value)`, used by the `validValues` membership check. -/
def jsToStr : JSVal → String
  | .undef => "undefined"
  | .null => "null"
  | .bool b => if b then "true" else "false"
  | .num q => numToStr q
  | .str s => s
  | .list xs => jsArrJoin xs

/-- The validation messages, structured by the template that produced
them.  In the source these are plain strings; the only computation ever
performed on them is `message?.includes('required')`, which (over the
generated messages, none of whose labels or texts contain the word
`required` except the `is required` template itself) holds exactly for
`requiredMsg`. -/
inductive VMsg where
  | requiredMsg (label : String) : VMsg
  | atLeast (label : String) (bound : Q) : VMsg
  | atMost (label : String) (bound : Q) : VMsg
  | oneOf (label : String) (vs : List String) : VMsg
  | customMsg (text : String) : VMsg
  | groupRequired (name : String) : VMsg
  | conflictText (text : String) : VMsg
deriving Repr

/-- `message?.includes('required')` over the generated messages. -/
def msgMentionsRequired : Option VMsg → Bool
  | some (.requiredMsg _) => true
  | _ => false

/-- Severity of a single field validation. -/
inductive FVSeverity where
  | error : FVSeverity
  | warning : FVSeverity
deriving DecidableEq, Repr

/-- Validation result for a single field. -/
structure FieldValidation where
  field : String
  valid : Bool
  message : Option VMsg := none
  severity : FVSeverity
deriving Repr

/-- Is a field validation an error? (`severity === 'error'`). -/
def fvIsError (r : FieldValidation) : Bool :=
  match r.severity with
  | .error => true
  | .warning => false

/-- A message is a range-violation message (the `must be at least` /
`must be at most` templates of the min/max checks). -/
def isRangeMsg : Option VMsg → Bool
  | some (.atLeast _ _) => true
  | some (.atMost _ _) => true
  | _ => false

/-- Field definition for validation (`FieldDefinition` in
`validator.ts`). -/
structure FieldDefinition where
  key : String
  label : String
  required : Bool := false
  requiredWhen : Option String := none
  min : Option Q := none
  max : Option Q := none
  validValues : Option (List String) := none
  validate : Option (JSVal → WizardState → Option String) := none

def fdKinematics : FieldDefinition :=
  { key := "printer.kinematics", label := "Kinematics Type", required := true,
    validValues := some ["cartesian", "corexy", "corexy-awd", "hybrid_corexy", "corexz", "delta"] }

def fdBoardType : FieldDefinition :=
  { key := "mcu.main.board_type", label := "Mainboard Type", required := true }

def fdXMotorPort : FieldDefinition :=
  { key := "stepper_x.motor_port", label := "Stepper X Motor Port",
    requiredWhen := some "printer.kinematics" }

def fdXStepPin : FieldDefinition :=
  { key := "stepper_x.step_pin", label := "Stepper X Step Pin",
    requiredWhen := some "stepper_x.motor_port" }

def fdXDirPin : FieldDefinition :=
  { key := "stepper_x.dir_pin", label := "Stepper X Direction Pin",
    requiredWhen := some "stepper_x.motor_port" }

def fdXEnablePin : FieldDefinition :=
  { key := "stepper_x.enable_pin", label := "Stepper X Enable Pin",
    requiredWhen := some "stepper_x.motor_port" }

def fdXRotDist : FieldDefinition :=
  { key := "stepper_x.rotation_distance", label := "Stepper X Rotation Distance",
    requiredWhen := some "stepper_x.motor_port", min := some 0.1, max := some 500 }

def fdXMicrosteps : FieldDefinition :=
  { key := "stepper_x.microsteps", label := "Stepper X Microsteps",
    requiredWhen := some "stepper_x.motor_port",
    validValues := some ["16", "32", "64", "128", "256"],
    validate := some (fun value _ =>
      match toNumber value with
      | some x =>
        if ([16, 32, 64, 128, 256] : List Q).any (fun m => qEq x m) then none
        else some ("Microsteps must be 16, 32, 64, 128, or 256")
      | none => some ("Microsteps must be 16, 32, 64, 128, or 256")) }

def fdXRunCurrent : FieldDefinition :=
  { key := "stepper_x.run_current", label := "Stepper X Run Current",
    min := some 0.1, max := some 3 }

def fdYMotorPort : FieldDefinition :=
  { key := "stepper_y.motor_port", label := "Stepper Y Motor Port",
    requiredWhen := some "printer.kinematics" }

def fdYStepPin : FieldDefinition :=
  { key := "stepper_y.step_pin", label := "Stepper Y Step Pin",
    requiredWhen := some "stepper_y.motor_port" }

def fdYDirPin : FieldDefinition :=
  { key := "stepper_y.dir_pin", label := "Stepper Y Direction Pin",
    requiredWhen := some "stepper_y.motor_port" }

def fdYEnablePin : FieldDefinition :=
  { key := "stepper_y.enable_pin", label := "Stepper Y Enable Pin",
    requiredWhen := some "stepper_y.motor_port" }

def fdYRotDist : FieldDefinition :=
  { key := "stepper_y.rotation_distance", label := "Stepper Y Rotation Distance",
    requiredWhen := some "stepper_y.motor_port", min := some 0.1, max := some 500 }

def fdYMicrosteps : FieldDefinition :=
  { key := "stepper_y.microsteps", label := "Stepper Y Microsteps",
    requiredWhen := some "stepper_y.motor_port" }

def fdZMotorPort : FieldDefinition :=
  { key := "stepper_z.motor_port", label := "Stepper Z Motor Port",
    requiredWhen := some "printer.kinematics" }

def fdZRotDist : FieldDefinition :=
  { key := "stepper_z.rotation_distance", label := "Stepper Z Rotation Distance",
    requiredWhen := some "stepper_z.motor_port", min := some 0.1, max := some 100 }

def fdX1MotorPort : FieldDefinition :=
  { key := "stepper_x1.motor_port", label := "Stepper X1 Motor Port",
    requiredWhen := some "printer.awd_enabled" }

def fdY1MotorPort : FieldDefinition :=
  { key := "stepper_y1.motor_port", label := "Stepper Y1 Motor Port",
    requiredWhen := some "printer.awd_enabled" }

def fdZ1MotorPort : FieldDefinition :=
  { key := "stepper_z1.motor_port", label := "Stepper Z1 Motor Port",
    requiredWhen := some "z_config.motor_count >= 2" }

def fdZ2MotorPort : FieldDefinition :=
  { key := "stepper_z2.motor_port", label := "Stepper Z2 Motor Port",
    requiredWhen := some "z_config.motor_count >= 3" }

def fdZ3MotorPort : FieldDefinition :=
  { key := "stepper_z3.motor_port", label := "Stepper Z3 Motor Port",
    requiredWhen := some "z_config.motor_count >= 4" }

def fdEMotorPort : FieldDefinition :=
  { key := "extruder.motor_port", label := "Extruder Motor Port",
    requiredWhen := some "printer.kinematics" }

def fdERotDist : FieldDefinition :=
  { key := "extruder.rotation_distance", label := "Extruder Rotation Distance",
    requiredWhen := some "extruder.motor_port", min := some 1, max := some 100 }

def fdBedHeaterPort : FieldDefinition :=
  { key := "heater_bed.heater_port", label := "Heater Bed Port" }

def fdBedThermistorPort : FieldDefinition :=
  { key := "heater_bed.thermistor_port", label := "Heater Bed Thermistor Port",
    requiredWhen := some "heater_bed.heater_port" }

def fdBedSensorType : FieldDefinition :=
  { key := "heater_bed.sensor_type", label := "Heater Bed Sensor Type",
    requiredWhen := some "heater_bed.heater_port" }

def fdBedMaxTemp : FieldDefinition :=
  { key := "heater_bed.max_temp", label := "Heater Bed Max Temperature",
    min := some 50, max := some 150 }

def fdHotendHeaterPort : FieldDefinition :=
  { key := "extruder.heater_port", label := "Hotend Heater Port",
    requiredWhen := some "extruder.motor_port" }

def fdHotendThermistorPort : FieldDefinition :=
  { key := "extruder.thermistor_port", label := "Hotend Thermistor Port",
    requiredWhen := some "extruder.heater_port" }

def fdHotendSensorType : FieldDefinition :=
  { key := "extruder.sensor_type", label := "Hotend Sensor Type",
    requiredWhen := some "extruder.heater_port" }

def fdHotendMaxTemp : FieldDefinition :=
  { key := "extruder.max_temp", label := "Hotend Max Temperature",
    min := some 150, max := some 500 }

def fdToolboardType : FieldDefinition :=
  { key := "mcu.toolboard.board_type", label := "Toolboard Type",
    requiredWhen := some "mcu.toolboard.enabled" }

/-- The compound `requiredWhen` condition of the toolboard CAN UUID
field. -/
def toolboardCanCond : String :=
  "mcu.toolboard.enabled and mcu.toolboard.connection_type == 'can'"

def fdToolboardUuid : FieldDefinition :=
  { key := "mcu.toolboard.canbus_uuid", label := "Toolboard CAN UUID",
    requiredWhen := some toolboardCanCond }

/-- The built-in field definitions (`FIELD_DEFINITIONS`), in declaration
order. -/
def FIELD_DEFINITIONS : List FieldDefinition := [
  fdKinematics, fdBoardType,
  fdXMotorPort, fdXStepPin, fdXDirPin, fdXEnablePin, fdXRotDist, fdXMicrosteps, fdXRunCurrent,
  fdYMotorPort, fdYStepPin, fdYDirPin, fdYEnablePin, fdYRotDist, fdYMicrosteps,
  fdZMotorPort, fdZRotDist,
  fdX1MotorPort, fdY1MotorPort,
  fdZ1MotorPort, fdZ2MotorPort, fdZ3MotorPort,
  fdEMotorPort, fdERotDist,
  fdBedHeaterPort, fdBedThermistorPort, fdBedSensorType, fdBedMaxTemp,
  fdHotendHeaterPort, fdHotendThermistorPort, fdHotendSensorType, fdHotendMaxTemp,
  fdToolboardType, fdToolboardUuid]

/-- `validateField` (`validator.ts`): required check (the `requiredWhen`
condition is evaluated with `evaluateSimpleCondition`), then — for a
nonempty value — the `min`/`max` checks (applied only when the runtime
type of the value is `number`), the `validValues` membership check
(against `String(value)`), and the custom validation function.  Each
produced validation is an error with the field's key. -/
def validateField (d : FieldDefinition) (st : WizardState) : Option FieldValidation :=
  let value := st d.key
  let mkErr : VMsg → Option FieldValidation := fun m =>
    some { field := d.key, valid := false, message := some m, severity := .error }
  let isRequired : Bool :=
    d.required ||
      (match d.requiredWhen with
       | some c => evaluateSimpleCondition c st
       | none => false)
  if isRequired && isEmpty value then mkErr (.requiredMsg d.label)
  else if isEmpty value then none
  else
    let step4 : Option FieldValidation :=
      match d.validate with
      | some f =>
        match f value st with
        | some text => mkErr (.customMsg text)
        | none => none
      | none => none
    let step3 : Option FieldValidation :=
      match d.validValues with
      | some vs => if ! vs.contains (jsToStr value) then mkErr (.oneOf d.label vs) else step4
      | none => step4
    let step2 : Option FieldValidation :=
      match d.max, value with
      | some m, .num q => if qLt m q then mkErr (.atMost d.label m) else step3
      | _, _ => step3
    match d.min, value with
    | some m, .num q => if qLt q m then mkErr (.atLeast d.label m) else step2
    | _, _ => step2

/-- `validateExclusiveGroups`: an error for every required group whose
target key is empty. -/
def validateExclusiveGroups (st : WizardState) : List FieldValidation :=
  EXCLUSIVE_GROUPS.filterMap (fun g =>
    if g.required && isEmpty (st g.stateKey) then
      some { field := g.stateKey, valid := false,
             message := some (.groupRequired g.name), severity := .error }
    else none)

/-- Overall validation result. -/
structure ValidationResult where
  valid : Bool
  errors : List FieldValidation
  warnings : List FieldValidation
  conflicts : List Conflict
  missingRequired : List String
  invalidValues : List FieldValidation

/-- The field a conflict is attached to:
`conflict.rule.relatedFields?.[0] || conflict.rule.id`. -/
def conflictField (rule : ConflictRule) : String :=
  match rule.relatedFields with
  | some (f :: _) => f
  | _ => rule.id

/-- `validateState` (`validator.ts`): every field definition is validated
(errors are split into missing-required and invalid-value lists by the
`includes('required')` test on the message), required exclusive groups
are checked, and detected conflicts are appended — error-severity
conflicts as blocking errors, warning-severity ones as warnings.  The
source builds each list with one pass of pushes; the `filterMap`/`filter`
forms below produce the same lists in the same order. -/
def validateState (st : WizardState) : ValidationResult :=
  let fieldResults := FIELD_DEFINITIONS.filterMap (fun d => validateField d st)
  let fieldErrors := fieldResults.filter fvIsError
  let fieldWarnings := fieldResults.filter (fun r => ! fvIsError r)
  let fieldMissing := FIELD_DEFINITIONS.filterMap (fun d =>
    match validateField d st with
    | some r => if fvIsError r && msgMentionsRequired r.message then some d.key else none
    | none => none)
  let fieldInvalid := fieldResults.filter (fun r => fvIsError r && ! msgMentionsRequired r.message)
  let groupErrors := validateExclusiveGroups st
  let conflicts := detectConflicts st
  let conflictErrors := conflicts.filterMap (fun c =>
    match c.rule.severity with
    | .error => some { field := conflictField c.rule, valid := false,
                       message := some (.conflictText c.rule.message), severity := FVSeverity.error }
    | _ => none)
  let conflictWarnings := conflicts.filterMap (fun c =>
    match c.rule.severity with
    | .warning => some { field := conflictField c.rule, valid := true,
                         message := some (.conflictText c.rule.message), severity := FVSeverity.warning }
    | _ => none)
  let errors := fieldErrors ++ groupErrors ++ conflictErrors
  { valid := errors.isEmpty,
    errors := errors,
    warnings := fieldWarnings ++ conflictWarnings,
    conflicts := conflicts,
    missingRequired := fieldMissing ++ groupErrors.map (fun e => e.field),
    invalidValues := fieldInvalid }

/-- `Math.round`: round half toward positive infinity. -/
def jsRound (q : Q) : Int := qFloor (qAdd q 0.5)

/-- The summary returned by `getValidationSummary`. -/
structure ValidationSummary where
  canGenerate : Bool
  errorCount : ℕ
  warningCount : ℕ
  completionPercent : Int

/-- `getValidationSummary` (`validator.ts`): counts from `validateState`,
plus a completion percentage computed over the fields with the
unconditional `required` flag only (`FIELD_DEFINITIONS.filter(f =>
f.required)`), counting a field as filled when its value is not empty. -/
def getValidationSummary (st : WizardState) : ValidationSummary :=
  let result := validateState st
  let requiredFields := FIELD_DEFINITIONS.filter (fun f => f.required)
  let filledRequired := (requiredFields.filter (fun f => ! isEmpty (st f.key))).length
  let completionPercent : Int :=
    if 0 < requiredFields.length then
      jsRound (qMul (qDiv (natToQ filledRequired) (natToQ requiredFields.length)) 100)
    else 100
  { canGenerate := result.valid,
    errorCount := result.errors.length,
    warningCount := result.warnings.length,
    completionPercent := completionPercent }

/-! ## Implication resolver (`implications.ts`) -/

/-- An implication rule: when its condition holds, its `setValues` are
proposed.  `priority` defaults to 0; `allowOverride` defaults to false. -/
structure Implication where
  id : String
  description : String
  condition : String
  setValues : List (String × JSVal)
  allowOverride : Bool := false
  priority : Int := 0

def impCorexyAwd : Implication :=
  { id := "corexy_awd_enables_awd",
    description := "CoreXY-AWD kinematics enables AWD mode",
    condition := "printer.kinematics == 'corexy-awd'",
    setValues := [("printer.awd_enabled", .bool true)] }

def impHybridAwd : Implication :=
  { id := "hybrid_corexy_enables_awd",
    description := "Hybrid CoreXY kinematics enables AWD mode",
    condition := "printer.kinematics == 'hybrid_corexy'",
    setValues := [("printer.awd_enabled", .bool true)] }

def impNonAwd : Implication :=
  { id := "non_awd_disables_awd",
    description := "Non-AWD kinematics disables AWD mode",
    condition := "printer.kinematics != 'corexy-awd' and printer.kinematics != 'hybrid_corexy'",
    setValues := [("printer.awd_enabled", .bool false)],
    priority := -1 }

def impTapZeroOffsets : Implication :=
  { id := "tap_zero_offsets",
    description := "Tap probe has zero X/Y offsets",
    condition := "probe.probe_type == 'tap'",
    setValues := [("probe.x_offset", .num 0), ("probe.y_offset", .num 0)] }

def impBeaconContact : Implication :=
  { id := "beacon_contact_homing",
    description := "Beacon with contact mode sets homing method",
    condition := "probe.probe_type == 'beacon' and probe.homing_mode == 'contact'",
    setValues := [("homing.homing_method", .str "beacon_contact")] }

def impCartographerTouch : Implication :=
  { id := "cartographer_touch_homing",
    description := "Cartographer with touch mode sets homing method",
    condition := "probe.probe_type == 'cartographer' and probe.homing_mode == 'touch'",
    setValues := [("homing.homing_method", .str "cartographer_touch")] }

def impBltouchHoming : Implication :=
  { id := "bltouch_homing",
    description := "BLTouch sets standard probe homing",
    condition := "probe.probe_type == 'bltouch'",
    setValues := [("homing.homing_method", .str "probe")] }

def impTapHoming : Implication :=
  { id := "tap_homing",
    description := "Tap sets probe homing method",
    condition := "probe.probe_type == 'tap'",
    setValues := [("homing.homing_method", .str "probe")] }

def impZ2Tilt : Implication :=
  { id := "z_motor_count_2_enables_z_tilt",
    description := "2 Z motors enables Z tilt",
    condition := "z_config.motor_count == 2",
    setValues := [("leveling.type", .str "z_tilt")],
    allowOverride := true }

def impZ3Tilt : Implication :=
  { id := "z_motor_count_3_enables_z_tilt",
    description := "3 Z motors enables Z tilt",
    condition := "z_config.motor_count == 3",
    setValues := [("leveling.type", .str "z_tilt")],
    allowOverride := true }

def impZ4Qgl : Implication :=
  { id := "z_motor_count_4_enables_qgl",
    description := "4 Z motors enables QGL",
    condition := "z_config.motor_count == 4",
    setValues := [("leveling.type", .str "quad_gantry_level")],
    allowOverride := true }

def impToolboardDefaults : Implication :=
  { id := "toolboard_default_extruder_location",
    description := "Toolboard enabled defaults extruder to toolboard",
    condition := "mcu.toolboard.enabled == true",
    setValues := [("extruder.motor_location", .str "toolboard"),
                  ("fans.part_cooling.location", .str "toolboard"),
                  ("fans.hotend.location", .str "toolboard")],
    allowOverride := true, priority := -1 }

def impSensorlessX : Implication :=
  { id := "sensorless_x_uses_diag",
    description := "Sensorless X homing uses diag pin",
    condition := "homing.x_endstop_type == 'sensorless'",
    setValues := [("stepper_x.endstop_pin", .str "virtual_endstop")] }

def impSensorlessY : Implication :=
  { id := "sensorless_y_uses_diag",
    description := "Sensorless Y homing uses diag pin",
    condition := "homing.y_endstop_type == 'sensorless'",
    setValues := [("stepper_y.endstop_pin", .str "virtual_endstop")] }

def impSafeZHome : Implication :=
  { id := "safe_z_home_center",
    description := "Safe Z home defaults to bed center",
    condition := "printer.bed_size_x and printer.bed_size_y",
    setValues := [],
    allowOverride := true }

/-- The built-in implication rules (`IMPLICATIONS`), in declaration
order. -/
def IMPLICATIONS : List Implication := [
  impCorexyAwd, impHybridAwd, impNonAwd,
  impTapZeroOffsets, impBeaconContact, impCartographerTouch, impBltouchHoming, impTapHoming,
  impZ2Tilt, impZ3Tilt, impZ4Qgl,
  impToolboardDefaults,
  impSensorlessX, impSensorlessY,
  impSafeZHome]

/-- Result of applying implications. -/
structure ImplicationResult where
  changedValues : List (String × JSVal)
  appliedImplications : List String
  skippedImplications : List String

/-- Stable insertion of a rule before the first rule of strictly greater
priority. -/
def insertByPriority (r : Implication) : List Implication → List Implication
  | [] => [r]
  | x :: xs => if r.priority ≤ x.priority then r :: x :: xs else x :: insertByPriority r xs

/-- The stable ascending-priority sort
(`[...IMPLICATIONS].sort((a, b) => (a.priority ?? 0) - (b.priority ?? 0))`;
`Array.prototype.sort` is stable, and so is this insertion sort: equal
priorities keep their declaration order). -/
def sortByPriority : List Implication → List Implication
  | [] => []
  | x :: xs => insertByPriority x (sortByPriority xs)

/-- The inner loop over one implication's `setValues`: skip overridden
keys (recording them), skip values already present in the state, record
the rest into `changedValues`. -/
def applySetValues (imp : Implication) (st : WizardState) (overrides : List String) :
    List (String × JSVal) → ImplicationResult → ImplicationResult
  | [], res => res
  | (k, v) :: kvs, res =>
    applySetValues imp st overrides kvs
      (if imp.allowOverride && overrides.contains k then
        { res with skippedImplications := res.skippedImplications ++ [imp.id ++ ":" ++ k] }
      else if strictEq (st k) v then res
      else { res with changedValues := recSet res.changedValues k v,
                      appliedImplications := res.appliedImplications ++ [imp.id] })

/-- The outer loop over the sorted rules: rules whose condition fails on
the input snapshot are skipped entirely. -/
def applyRules (st : WizardState) (overrides : List String) :
    List Implication → ImplicationResult → ImplicationResult
  | [], res => res
  | imp :: rest, res =>
    applyRules st overrides rest
      (if evaluateCondition (some imp.condition) st then
        applySetValues imp st overrides imp.setValues res
      else res)

/-- `applyImplications` generalized over the rule table (the source's
function closes over the constant `IMPLICATIONS`; the algorithm itself
is this). -/
def applyImplicationsWith (rules : List Implication) (st : WizardState)
    (overrides : List String) : ImplicationResult :=
  applyRules st overrides (sortByPriority rules)
    { changedValues := [], appliedImplications := [], skippedImplications := [] }

/-- `applyImplications` (`implications.ts`). -/
def applyImplications (st : WizardState) (overrides : List String) : ImplicationResult :=
  applyImplicationsWith IMPLICATIONS st overrides

/-- The caller-side merge `{ ...state, ...changedValues }` of a returned
diff into the state. -/
def mergeState (st : WizardState) (d : List (String × JSVal)) : WizardState :=
  fun k =>
    match recFind d k with
    | some v => v
    | none => st k

/-! ## Inheritance resolver (`inheritance.ts`, `src/unnamed/part_012`) -/

/-- Fields that can be copied between steppers. -/
def COPYABLE_STEPPER_FIELDS : List String :=
  ["driver_type", "microsteps", "rotation_distance", "run_current",
   "hold_current", "stealthchop_threshold", "interpolate"]

/-- A declared parent-to-child inheritance relationship. -/
structure InheritanceRelation where
  child : String
  parent : String
  fields : List String
  condition : Option String := none
  description : String

/-- The built-in inheritance relationships (`INHERITANCE_RELATIONS`). -/
def INHERITANCE_RELATIONS : List InheritanceRelation := [
  { child := "stepper_y", parent := "stepper_x", fields := COPYABLE_STEPPER_FIELDS,
    description := "Y stepper uses same settings as X (common for CoreXY)" },
  { child := "stepper_x1", parent := "stepper_x", fields := COPYABLE_STEPPER_FIELDS,
    condition := some "printer.awd_enabled",
    description := "X1 stepper (AWD) inherits from X" },
  { child := "stepper_y1", parent := "stepper_y", fields := COPYABLE_STEPPER_FIELDS,
    condition := some "printer.awd_enabled",
    description := "Y1 stepper (AWD) inherits from Y" },
  { child := "stepper_z1", parent := "stepper_z", fields := COPYABLE_STEPPER_FIELDS,
    condition := some "z_config.motor_count >= 2",
    description := "Z1 stepper inherits from Z" },
  { child := "stepper_z2", parent := "stepper_z", fields := COPYABLE_STEPPER_FIELDS,
    condition := some "z_config.motor_count >= 3",
    description := "Z2 stepper inherits from Z" },
  { child := "stepper_z3", parent := "stepper_z", fields := COPYABLE_STEPPER_FIELDS,
    condition := some "z_config.motor_count >= 4",
    description := "Z3 stepper inherits from Z" }]

/-- `getInheritanceRelation`: the relation whose child is the given
stepper. -/
def getInheritanceRelation (stepperName : String) : Option InheritanceRelation :=
  INHERITANCE_RELATIONS.find? (fun r => r.child == stepperName)

/-- The field loop of `applyInheritance`: each copyable field whose
child key is `undefined` while the parent key is present is proposed with
the parent's value. -/
def inheritBuild (stepperName : String) (rel : InheritanceRelation)
    (st : WizardState) : List (String × JSVal) :=
  rel.fields.foldl (fun changes field =>
    let childKey := stepperName ++ "." ++ field
    let parentKey := rel.parent ++ "." ++ field
    if isUndef (st childKey) && ! isUndef (st parentKey) then
      recSet changes childKey (st parentKey)
    else changes) []

/-- `applyInheritance` (`inheritance.ts`): with no relation, or a failing
activation condition, nothing is proposed; otherwise each copyable field
whose child key is `undefined` and whose parent key is present is
proposed with the parent's value.  The condition evaluator is a
parameter, as in the source. -/
def applyInheritance (stepperName : String) (st : WizardState)
    (ec : String → WizardState → Bool) : List (String × JSVal) :=
  match getInheritanceRelation stepperName with
  | none => []
  | some rel =>
    match rel.condition with
    | some c =>
      if ! ec c st then []
      else inheritBuild stepperName rel st
    | none => inheritBuild stepperName rel st

/-! ## Theorems about the embedded engine -/

/-- The state of the concrete conflict-detector scenario:
`{ "leveling.type": "z_tilt", "z_config.motor_count": 4 }`. -/
def zTiltDemoState : WizardState := fun k =>
  if k = "leveling.type" then .str "z_tilt"
  else if k = "z_config.motor_count" then .num 4
  else (.undef)

/-- The diff `selectOption` is specified to build, written from the
spec's own wording (§4.4) for comparison with the source algorithm:
start from `targetKey ↦ optionValue`, merge the chosen option's implied
values, add a DELETE for every key implied by an option with another
value that is not yet in the diff, and finally a DELETE for each of the
chosen option's `clearValues`. -/
def specSelectDiff (group : ExclusiveGroup) (optionValue : String)
    (option : ExclusiveOption) : List (String × JSVal) :=
  let base := [(group.stateKey, JSVal.str optionValue)]
  let withImplied := (option.impliedValues.getD []).foldl (fun c kv => recSet c kv.1 kv.2) base
  let otherImpliedKeys :=
    (group.options.filter (fun o => o.value ≠ optionValue)).flatMap
      (fun o => (o.impliedValues.getD []).map Prod.fst)
  let withDeletes :=
    otherImpliedKeys.foldl (fun d k => if recHas d k then d else recSet d k .undef) withImplied
  (option.clearValues.getD []).foldl (fun d k => recSet d k .undef) withDeletes

/-- The two-option group of the retraction example: option `a` implies
`x = 1`, option `b` implies nothing. -/
def demoRetractGroup : ExclusiveGroup :=
  { id := "demo", name := "Demo", description := "Retraction example group",
    stateKey := "g",
    options := [
      { value := "a", label := "A", impliedValues := some [("x", .num 1)] },
      { value := "b", label := "B" }] }

/-- The state of the C8 witness: the child's `run_current` is already
set, the parent's differs. -/
def inheritDemoState : WizardState := fun k =>
  if k = "stepper_y.run_current" then .num 0.8
  else if k = "stepper_x.run_current" then .num 1.1
  else (.undef)

/-! ## C2: bare-identifier truthiness -/

/-- The empty state `{}`. -/
def emptyState : WizardState := fun _ => (.undef)

/-- The state `{x: 0}`. -/
def stateX0 : WizardState := fun k => if k = "x" then .num 0 else (.undef)

/-- The state `{x: "0"}`. -/
def stateXStr0 : WizardState := fun k => if k = "x" then .str "0" else (.undef)

/-! ## C3: priority overwrite in the implication resolver

The loop body of `applyImplications` skips a proposed write when the
*input snapshot* already holds the proposed value (`state[key] === value`)
and when the rule allows override and the user has overridden the key.
Both skips are decided per rule, so a higher-priority rule's write can be
skipped while a lower-priority rule's write for the same key stands. -/

def r1c : Implication :=
  { id := "default_rule", description := "low-priority default",
    condition := "", setValues := [("leveling.type", .str "bed_tilt")],
    priority := 0 }

def r2c : Implication :=
  { id := "specific_rule", description := "high-priority specific",
    condition := "", setValues := [("leveling.type", .str "z_tilt")],
    priority := 1 }

/-- A state that already carries the high-priority rule's value. -/
def c3State : WizardState :=
  fun k => if k = "leveling.type" then .str "z_tilt" else (.undef)

/-! ## C7: the validator simple evaluator vs the full evaluator -/

/-- A state enabling the toolboard over CAN. -/
def s7 : WizardState := fun k =>
  if k = "mcu.toolboard.enabled" then .bool true
  else if k = "mcu.toolboard.connection_type" then .str "can"
  else (.undef)

/-! ## C9: the completion ratio -/

/-- Spec-side "filled": the value is not absent, `null`, or the empty
string. -/
def specFilled : JSVal → Bool
  | .undef => false
  | .null => false
  | .str s => ! (s == "")
  | _ => true

/-- Spec-side: the field rules carrying the unconditional
`required=true` flag. -/
def specRequiredRules : List FieldDefinition :=
  FIELD_DEFINITIONS.filter (fun f => f.required)

/-- Spec-side completion: `round(100 * filledCount / totalCount)`, both
counts over the unconditionally required rules only. -/
def specCompletion (st : WizardState) : Int :=
  jsRound (qDiv
    (qMul 100 (natToQ ((specRequiredRules.filter
      (fun f => specFilled (st f.key))).length)))
    (natToQ specRequiredRules.length))

/-! ## C10: range checks fire only on number-typed values -/

/-- A state whose X run-current is the *string* `"9999"` — present,
non-numeric in type, numerically far above the field's `max` of 3. -/
def c10State : WizardState :=
  fun k => if k = "stepper_x.run_current" then .str "9999" else (.undef)

/-! ## C4: idempotence of the implication resolver

The diff entry the resolver leaves at a key is the "effective write" of
the sorted rule list at that key — the last firing rule's surviving
write — computed by `rulesWrite` below. -/

/-- `Option` fallback: the first operand if present, else the second. -/
def oElse (a b : Option JSVal) : Option JSVal :=
  match a with
  | some w => some w
  | none => b

/-- The effective write of one rule pass at one key: the last entry for
the key whose override-skip and churn-skip both fail. -/
def lastWrite (imp : Implication) (st : WizardState) (o : List String) (k : String) :
    List (String × JSVal) → Option JSVal
  | [] => none
  | (k', v) :: kvs =>
    oElse (lastWrite imp st o k kvs)
      (if k' = k ∧ ¬((imp.allowOverride && o.contains k') = true)
          ∧ ¬(strictEq (st k') v = true)
       then some v else none)

/-- The effective write of a rule at a key: nothing unless its condition
holds on the snapshot. -/
def ruleWrite (st : WizardState) (o : List String) (k : String) (imp : Implication) :
    Option JSVal :=
  if evaluateCondition (some imp.condition) st = true then lastWrite imp st o k imp.setValues
  else none

/-- The effective write of a rule list at a key: the last rule's write
wins. -/
def rulesWrite (st : WizardState) (o : List String) (k : String) :
    List Implication → Option JSVal
  | [] => none
  | r :: rs => oElse (rulesWrite st o k rs) (ruleWrite st o k r)

/-- Well-formed number values: a `num` payload has a positive
denominator (every number the engine or the tables construct does; a
zero denominator represents no JavaScript number). -/
def numWF : JSVal → Prop
  | .num q => 0 < q.den
  | _ => True

/-- A demonstration state for the idempotence theorem: four Z motors and
an enabled toolboard, so the first pass actually fires rules and
produces a five-entry diff. -/
def c4State : WizardState := fun k =>
  if k = "z_config.motor_count" then .num 4
  else if k = "mcu.toolboard.enabled" then .bool true
  else (.undef)

/-- A tokenizer step never adds characters back. -/
theorem scanTok_length_le (c : Char) (rest : List Char) :
    (scanTok c rest).2.length ≤ rest.length := by
  have hq : ∀ p : Char → Bool, (rest.dropWhile p).length ≤ rest.length :=
    fun p => (List.dropWhile_sublist p (l := rest)).length_le
  have hqd : ∀ p : Char → Bool, ((rest.dropWhile p).drop 1).length ≤ rest.length := by
    intro p
    have := hq p
    simp only [List.length_drop]
    omega
  have hd1 : (rest.drop 1).length ≤ rest.length := by
    simp only [List.length_drop]
    omega
  unfold scanTok
  by_cases h1 : c.isWhitespace = true
  case pos => rw [if_pos h1]
  case neg =>
  rw [if_neg h1]
  by_cases h2 : (c == dquote || c == squote) = true
  case pos => rw [if_pos h2]; exact hqd _
  case neg =>
  rw [if_neg h2]
  by_cases h3 : (c.isDigit || (c == '-' && ((rest.head?.map Char.isDigit).getD false))) = true
  case pos =>
    rw [if_pos h3]
    by_cases h3b : (c == '-') = true
    case pos => rw [if_pos h3b]; exact hq _
    case neg => rw [if_neg h3b]; exact hq _
  case neg =>
  rw [if_neg h3]
  by_cases h4 : (c == '=' && rest.head? == some '=') = true
  case pos => rw [if_pos h4]; exact hd1
  case neg =>
  rw [if_neg h4]
  by_cases h5 : (c == '!' && rest.head? == some '=') = true
  case pos => rw [if_pos h5]; exact hd1
  case neg =>
  rw [if_neg h5]
  by_cases h6 : (c == '<' && rest.head? == some '=') = true
  case pos => rw [if_pos h6]; exact hd1
  case neg =>
  rw [if_neg h6]
  by_cases h7 : (c == '>' && rest.head? == some '=') = true
  case pos => rw [if_pos h7]; exact hd1
  case neg =>
  rw [if_neg h7]
  by_cases h8 : (c == '<') = true
  case pos => rw [if_pos h8]
  case neg =>
  rw [if_neg h8]
  by_cases h9 : (c == '>') = true
  case pos => rw [if_pos h9]
  case neg =>
  rw [if_neg h9]
  by_cases h10 : (c == '=') = true
  case pos => rw [if_pos h10]
  case neg =>
  rw [if_neg h10]
  by_cases h11 : (c == '(') = true
  case pos => rw [if_pos h11]
  case neg =>
  rw [if_neg h11]
  by_cases h12 : (c == ')') = true
  case pos => rw [if_pos h12]
  case neg =>
  rw [if_neg h12]
  by_cases h13 : (c == '[') = true
  case pos => rw [if_pos h13]
  case neg =>
  rw [if_neg h13]
  by_cases h14 : (c == ']') = true
  case pos => rw [if_pos h14]
  case neg =>
  rw [if_neg h14]
  by_cases h15 : (c == ',') = true
  case pos => rw [if_pos h15]
  case neg =>
  rw [if_neg h15]
  by_cases h16 : isIdentStart c = true
  case pos => rw [if_pos h16]; exact hq _
  case neg =>
  rw [if_neg h16]

/-- The tokenizer's fuel is sufficient: every step consumes at least one
character. -/
theorem tokenizeAux_total : ∀ (f : Nat) (cs : List Char), cs.length < f →
    (tokenizeAux f cs).isSome = true := by
  intro f
  induction f with
  | zero => intro cs h; omega
  | succ f ih =>
    intro cs h
    match cs with
    | [] => simp [tokenizeAux]
    | c :: rest =>
      have hlen : rest.length < f := by
        simp at h
        omega
      rw [tokenizeAux]
      simp only [Option.isSome_map']
      exact ih _ (Nat.lt_of_le_of_lt (scanTok_length_le c rest) hlen)

/-- `tokenize` always succeeds. -/
theorem tokenize_total (condition : String) : (tokenize condition).isSome = true :=
  tokenizeAux_total _ _ (Nat.lt_succ_self _)

theorem parseStep_total (st : WizardState) : ∀ (f : Nat) (m : PMode) (acc : JSVal) (ts : List Token),
    8 * ts.length + modeCost m ≤ f →
    ∃ v rest, parseStep st m acc f ts = some (v, rest) ∧ rest.length ≤ ts.length ∧
      (strictNeeded m ts → rest.length + 1 ≤ ts.length) := by
  intro f
  induction f with
  | zero =>
    intro m acc ts h
    exfalso
    cases m <;> simp [modeCost] at h
  | succ f ih =>
    intro m acc ts h
    cases m with
    | orM =>
      simp only [modeCost] at h
      obtain ⟨v1, r1, he1, hl1, _⟩ := ih .andM .undef ts (by simp only [modeCost]; omega)
      obtain ⟨v2, r2, he2, hl2, _⟩ := ih .orLoopM v1 r1 (by simp only [modeCost]; omega)
      refine ⟨v2, r2, ?_, Nat.le_trans hl2 hl1, fun hs => hs.elim⟩
      simp only [parseStep, he1, Option.bind_eq_bind, Option.some_bind]
      exact he2
    | andM =>
      simp only [modeCost] at h
      obtain ⟨v1, r1, he1, hl1, _⟩ := ih .notM .undef ts (by simp only [modeCost]; omega)
      obtain ⟨v2, r2, he2, hl2, _⟩ := ih .andLoopM v1 r1 (by simp only [modeCost]; omega)
      refine ⟨v2, r2, ?_, Nat.le_trans hl2 hl1, fun hs => hs.elim⟩
      simp only [parseStep, he1, Option.bind_eq_bind, Option.some_bind]
      exact he2
    | orLoopM =>
      simp only [modeCost] at h
      cases ts with
      | nil => exact ⟨acc, [], rfl, Nat.le_refl _, fun hs => hs.elim⟩
      | cons t rest =>
        cases t
        case orTok =>
          simp only [List.length_cons] at h
          obtain ⟨v1, r1, he1, hl1, _⟩ := ih .andM .undef rest (by simp only [modeCost]; omega)
          obtain ⟨v2, r2, he2, hl2, _⟩ := ih .orLoopM (jsOr acc v1) r1 (by simp only [modeCost]; omega)
          refine ⟨v2, r2, ?_, by simp only [List.length_cons]; omega, fun hs => hs.elim⟩
          simp only [parseStep, he1, Option.bind_eq_bind, Option.some_bind]
          exact he2
        all_goals exact ⟨acc, _, rfl, Nat.le_refl _, fun hs => hs.elim⟩
    | andLoopM =>
      simp only [modeCost] at h
      cases ts with
      | nil => exact ⟨acc, [], rfl, Nat.le_refl _, fun hs => hs.elim⟩
      | cons t rest =>
        cases t
        case andTok =>
          simp only [List.length_cons] at h
          obtain ⟨v1, r1, he1, hl1, _⟩ := ih .notM .undef rest (by simp only [modeCost]; omega)
          obtain ⟨v2, r2, he2, hl2, _⟩ := ih .andLoopM (jsAnd acc v1) r1 (by simp only [modeCost]; omega)
          refine ⟨v2, r2, ?_, by simp only [List.length_cons]; omega, fun hs => hs.elim⟩
          simp only [parseStep, he1, Option.bind_eq_bind, Option.some_bind]
          exact he2
        all_goals exact ⟨acc, _, rfl, Nat.le_refl _, fun hs => hs.elim⟩
    | notM =>
      simp only [modeCost] at h
      cases ts with
      | nil =>
        obtain ⟨v1, r1, he1, hl1, _⟩ := ih .cmpM .undef [] (by simp only [modeCost]; omega)
        exact ⟨v1, r1, by simp only [parseStep]; exact he1, hl1, fun hs => hs.elim⟩
      | cons t rest =>
        obtain ⟨vc, rc, hec, hlc, _⟩ := ih .cmpM .undef (t :: rest)
          (by simp only [modeCost, List.length_cons] at h ⊢; omega)
        cases t
        case notTok =>
          simp only [List.length_cons] at h
          obtain ⟨v1, r1, he1, hl1, _⟩ := ih .notM .undef rest (by simp only [modeCost]; omega)
          refine ⟨jsNot v1, r1, ?_, by simp only [List.length_cons]; omega, fun hs => hs.elim⟩
          simp only [parseStep, he1, Option.bind_eq_bind, Option.some_bind]
        all_goals exact ⟨vc, rc, by simp only [parseStep]; exact hec, hlc, fun hs => hs.elim⟩
    | cmpM =>
      simp only [modeCost] at h
      obtain ⟨left, ts1, he1, hl1, _⟩ := ih .primM .undef ts (by simp only [modeCost]; omega)
      cases ts1 with
      | nil =>
        refine ⟨left, [], ?_, Nat.zero_le _, fun hs => hs.elim⟩
        simp only [parseStep, he1, Option.bind_eq_bind, Option.some_bind]
      | cons t1 rest1 =>
        simp only [List.length_cons] at hl1
        cases t1
        case inTok =>
          obtain ⟨va, ra, hea, hla, _⟩ := ih .arrM .undef rest1 (by simp only [modeCost]; omega)
          cases va
          case list xs =>
            refine ⟨.bool (xs.any (fun x => strictEq x left)), ra, ?_, by omega, fun hs => hs.elim⟩
            simp only [parseStep, he1, Option.bind_eq_bind, Option.some_bind, hea]
          all_goals refine ⟨.bool false, ra, ?_, by omega, fun hs => hs.elim⟩
          all_goals simp only [parseStep, he1, Option.bind_eq_bind, Option.some_bind, hea]
        case notTok =>
          cases rest1 with
          | nil =>
            refine ⟨left, [Token.notTok], ?_,
              by simp only [List.length_nil, List.length_cons] at hl1 ⊢; omega, fun hs => hs.elim⟩
            simp only [parseStep, he1, Option.bind_eq_bind, Option.some_bind]
          | cons t2 rest2 =>
            simp only [List.length_cons] at hl1
            cases t2
            case inTok =>
              obtain ⟨va, ra, hea, hla, _⟩ := ih .arrM .undef rest2 (by simp only [modeCost]; omega)
              cases va
              case list xs =>
                refine ⟨.bool (! xs.any (fun x => strictEq x left)), ra, ?_, by omega, fun hs => hs.elim⟩
                simp only [parseStep, he1, Option.bind_eq_bind, Option.some_bind, hea]
              all_goals refine ⟨.bool true, ra, ?_, by omega, fun hs => hs.elim⟩
              all_goals simp only [parseStep, he1, Option.bind_eq_bind, Option.some_bind, hea]
            all_goals exact ⟨left, _,
              by simp only [parseStep, he1, Option.bind_eq_bind, Option.some_bind]; rfl,
              by simp only [List.length_cons, List.length_nil] at hl1 ⊢; omega,
              fun hs => hs.elim⟩
        case opTok s =>
          obtain ⟨vr, rr, her, hlr, _⟩ := ih .primM .undef rest1 (by simp only [modeCost]; omega)
          exact ⟨_, rr,
            by simp only [parseStep, he1, Option.bind_eq_bind, Option.some_bind, her]; rfl,
            by omega, fun hs => hs.elim⟩
        all_goals exact ⟨left, _,
          by simp only [parseStep, he1, Option.bind_eq_bind, Option.some_bind]; rfl,
          by simp only [List.length_cons, List.length_nil] at hl1 ⊢; omega,
          fun hs => hs.elim⟩
    | primM =>
      simp only [modeCost] at h
      cases ts with
      | nil => exact ⟨.undef, [], rfl, Nat.le_refl _, fun hs => absurd rfl hs⟩
      | cons t rest =>
        simp only [List.length_cons] at h
        cases t
        case lparen =>
          obtain ⟨v1, r1, he1, hl1, _⟩ := ih .orM .undef rest (by simp only [modeCost]; omega)
          have hts2 : (match r1 with
              | Token.rparen :: r => r
              | _ => r1).length ≤ r1.length := by
            cases r1 with
            | nil => exact Nat.le_refl _
            | cons a b =>
              cases a
              case rparen => simp only [List.length_cons]; omega
              all_goals exact Nat.le_refl _
          exact ⟨v1, _,
            by simp only [parseStep, he1, Option.bind_eq_bind, Option.some_bind]; rfl,
            by simp only [List.length_cons]; omega,
            fun _ => by simp only [List.length_cons]; omega⟩
        case lbracket =>
          obtain ⟨va, ra, hea, hla, hstrict⟩ := ih .arrM .undef (Token.lbracket :: rest)
            (by simp only [modeCost, List.length_cons]; omega)
          have hs := hstrict trivial
          exact ⟨va, ra, by simp only [parseStep]; exact hea, hla, fun _ => hs⟩
        all_goals exact ⟨_, rest, rfl,
          by simp only [List.length_cons]; omega,
          fun _ => by simp only [List.length_cons]; omega⟩
    | arrM =>
      simp only [modeCost] at h
      cases ts with
      | nil => exact ⟨.list [], [], rfl, Nat.le_refl _, fun hs => hs.elim⟩
      | cons t rest =>
        simp only [List.length_cons] at h
        cases t
        case lbracket =>
          obtain ⟨va, ra, hea, hla, _⟩ := ih .arrLoopM (.list []) rest (by simp only [modeCost]; omega)
          exact ⟨va, ra, by simp only [parseStep]; exact hea,
            by simp only [List.length_cons]; omega,
            fun _ => by simp only [List.length_cons]; omega⟩
        all_goals exact ⟨.list [], _, rfl, Nat.le_refl _, fun hs => hs.elim⟩
    | arrLoopM =>
      simp only [modeCost] at h
      cases ts with
      | nil => exact ⟨_, [], rfl, Nat.le_refl _, fun hs => hs.elim⟩
      | cons t rest =>
        simp only [List.length_cons] at h
        obtain ⟨v1, r1, he1, hl1, hstrict⟩ := ih .primM .undef (t :: rest)
          (by simp only [modeCost, List.length_cons]; omega)
        have hs1 : r1.length + 1 ≤ (t :: rest).length := hstrict (by simp [strictNeeded])
        simp only [List.length_cons] at hs1 hl1
        obtain ⟨ts2, hts2d⟩ : ∃ ts2, (match r1 with
            | Token.comma :: r => r
            | _ => r1) = ts2 := ⟨_, rfl⟩
        have hts2 : ts2.length ≤ r1.length := by
          rw [← hts2d]
          cases r1 with
          | nil => exact Nat.le_refl _
          | cons a b =>
            cases a
            case comma => simp only [List.length_cons]; omega
            all_goals exact Nat.le_refl _
        obtain ⟨v2, r2, he2, hl2, _⟩ := ih .arrLoopM
          (.list ((match acc with
            | JSVal.list xs => xs
            | _ => []) ++ [v1]))
          ts2
          (by simp only [modeCost]; omega)
        cases t
        case eof => exact ⟨_, _, rfl, Nat.le_refl _, fun hs => hs.elim⟩
        case rbracket => exact ⟨_, rest, rfl, by simp only [List.length_cons]; omega, fun hs => hs.elim⟩
        all_goals {
          refine ⟨v2, r2, ?_, by simp only [List.length_cons]; omega, fun hs => hs.elim⟩
          simp only [parseStep, he1, Option.bind_eq_bind, Option.some_bind, hts2d]
          exact he2
        }

theorem recHas_iff_recFind (r : List (String × JSVal)) (k : String) :
    recHas r k = true ↔ recFind r k ≠ none := by
  induction r with
  | nil => simp [recHas, recFind]
  | cons p r ih =>
    by_cases h : p.1 = k
    · simp [recHas, recFind, h]
    · simpa [recHas, recFind, h] using ih

theorem recFind_map_set_self (r : List (String × JSVal)) (k : String) (v : JSVal)
    (h : recHas r k = true) :
    recFind (r.map (fun p => if p.1 = k then (p.1, v) else p)) k = some v := by
  induction r with
  | nil => simp [recHas] at h
  | cons p r ih =>
    simp only [List.map_cons, recFind]
    by_cases hp : p.1 = k
    · simp [hp]
    · have h' : recHas r k = true := by simpa [recHas, hp] using h
      simp [hp, ih h']

theorem recFind_map_set_other (r : List (String × JSVal)) (k k' : String) (v : JSVal)
    (h : k' ≠ k) :
    recFind (r.map (fun p => if p.1 = k then (p.1, v) else p)) k' = recFind r k' := by
  induction r with
  | nil => simp [recFind]
  | cons p r ih =>
    simp only [List.map_cons, recFind]
    by_cases hpk : p.1 = k
    · simp [hpk, (show ¬ k = k' from fun hc => h hc.symm), ih]
    · by_cases hp : p.1 = k'
      · simp [hpk, hp, h]
      · simp [hpk, hp, ih]

theorem recFind_append (r s : List (String × JSVal)) (k : String) :
    recFind (r ++ s) k =
      match recFind r k with
      | some v => some v
      | none => recFind s k := by
  induction r with
  | nil => simp [recFind]
  | cons p r ih =>
    by_cases hp : p.1 = k
    · simp [recFind, hp]
    · simpa [recFind, hp] using ih

theorem recFind_recSet_self (r : List (String × JSVal)) (k : String) (v : JSVal) :
    recFind (recSet r k v) k = some v := by
  by_cases h : recHas r k = true
  · simp only [recSet, if_pos h]
    exact recFind_map_set_self r k v h
  · have hf : recFind r k = none := by
      by_contra hc
      exact h ((recHas_iff_recFind r k).mpr hc)
    simp only [recSet, if_neg h]
    rw [recFind_append, hf]
    simp [recFind]

theorem recFind_recSet_other (r : List (String × JSVal)) (k k' : String) (v : JSVal)
    (h : k' ≠ k) : recFind (recSet r k v) k' = recFind r k' := by
  by_cases hh : recHas r k = true
  · simp only [recSet, if_pos hh]
    exact recFind_map_set_other r k k' v h
  · simp only [recSet, if_neg hh]
    rw [recFind_append]
    cases hf : recFind r k' with
    | some w => rfl
    | none => simp [recFind, (show ¬ k = k' from fun hc => h hc.symm)]

/-- A key already present stays present after any `recSet`. -/
theorem recFind_recSet_isSome (r : List (String × JSVal)) (k k' : String) (v : JSVal)
    (h : recFind r k ≠ none) : recFind (recSet r k' v) k ≠ none := by
  by_cases hk : k = k'
  · subst hk; simp [recFind_recSet_self]
  · rw [recFind_recSet_other r k' k v hk]
    exact h

set_option maxRecDepth 8000 in
/-- C6, counterexample: the state
`{ "leveling.type": "z_tilt", "z_config.motor_count": 4 }` does not
produce exactly one error-severity conflict — it produces three (the
Z-Tilt rule plus `no_kinematics_selected` and `no_mainboard_selected`,
since the state leaves kinematics and mainboard unset). -/
theorem claim_C6_cex :
    ¬ ((detectConflicts zTiltDemoState).filter isErrorConflict).length = 1 := by
  decide

set_option maxRecDepth 8000 in
/-- C6 (amended): on the state
`{ "leveling.type": "z_tilt", "z_config.motor_count": 4 }` the conflict
detector produces exactly three error-severity conflicts — the
`z_tilt_requires_2_or_3_motors` rule together with
`no_kinematics_selected` and `no_mainboard_selected` (which fire because
the state sets no kinematics and no mainboard) — and the unique Z-Tilt
conflict's context equals
`{"leveling.type": "z_tilt", "z_config.motor_count": 4}`. -/
theorem claim_C6 :
    ((detectConflicts zTiltDemoState).filter isErrorConflict).map (fun c => c.rule.id)
        = [crZTilt.id, crNoKinematics.id, crNoMainboard.id]
    ∧ (detectConflicts zTiltDemoState).filter (fun c => c.rule.id == crZTilt.id)
        = [{ rule := crZTilt,
             context := [("leveling.type", .str "z_tilt"),
                         ("z_config.motor_count", .num 4)] }] := by
  constructor
  · rfl
  · rfl

/-! ## C5: the exclusive-group manager -/

theorem foldl_flatMap {α β γ : Type} (l : List α) (f : α → List β) (g : γ → β → γ) (i : γ) :
    (l.flatMap f).foldl g i = l.foldl (fun a x => (f x).foldl g a) i := by
  induction l generalizing i with
  | nil => rfl
  | cons x xs ih => simp only [List.flatMap_cons, List.foldl_append, List.foldl_cons, ih]

theorem foldl_filter {α γ : Type} (l : List α) (p : α → Bool) (g : γ → α → γ) (i : γ) :
    (l.filter p).foldl g i = l.foldl (fun a x => if p x then g a x else a) i := by
  induction l generalizing i with
  | nil => rfl
  | cons x xs ih =>
    by_cases hp : p x
    · simp [List.filter_cons, hp, ih]
    · simp [List.filter_cons, hp, ih]

/-- C5: for every exclusive group and every option value naming one of
its options, `selectOption` returns exactly the diff described by the
spec's algorithm (target key, then the chosen option's implied values,
then DELETE for every other option's implied key not already present,
then DELETE for the chosen option's `clearValues`); and in particular,
in a group where option `a` implies `x = 1` and option `b` implies
nothing, selecting `b` yields a diff containing `x ↦ DELETE`. -/
theorem claim_C5 :
    (∀ (group : ExclusiveGroup) (optionValue : String) (opt : ExclusiveOption),
        group.options.find? (fun o => o.value == optionValue) = some opt →
        selectOption group optionValue = specSelectDiff group optionValue opt)
    ∧ recFind (selectOption demoRetractGroup "b") "x" = some .undef := by
  constructor
  · intro group v opt h
    unfold selectOption specSelectDiff
    rw [h]
    have e1 : ∀ (iv : Option (List (String × JSVal))) (c : List (String × JSVal)),
        (match iv with
         | some iv => iv.foldl (fun c kv => recSet c kv.1 kv.2) c
         | none => c) = (iv.getD []).foldl (fun c kv => recSet c kv.1 kv.2) c := by
      intro iv c
      cases iv <;> rfl
    have e3 : ∀ (cv : Option (List String)) (c : List (String × JSVal)),
        (match cv with
         | some cv => cv.foldl (fun c k => recSet c k .undef) c
         | none => c) = (cv.getD []).foldl (fun c k => recSet c k .undef) c := by
      intro cv c
      cases cv <;> rfl
    have e2 : ∀ c : List (String × JSVal),
        group.options.foldl (fun c other =>
          if other.value ≠ v then
            match other.impliedValues with
            | some iv => iv.foldl (fun c kv => if recHas c kv.1 then c else recSet c kv.1 .undef) c
            | none => c
          else c) c
        = ((group.options.filter (fun o => o.value ≠ v)).flatMap
            (fun o => (o.impliedValues.getD []).map Prod.fst)).foldl
            (fun d k => if recHas d k then d else recSet d k .undef) c := by
      intro c
      rw [foldl_flatMap, foldl_filter]
      congr 1
      funext a o
      by_cases ho : o.value = v
      · simp [ho]
      · simp only [ne_eq, ho, not_false_eq_true, decide_True, if_true]
        cases o.impliedValues <;> simp [List.foldl_map]
    simp only [e1, e3, e2]
  · rfl

/-- C5, witness: the general half of `claim_C5` applied to the concrete
demo group, with its hypothesis discharged by computation. -/
theorem claim_C5_witness :
    selectOption demoRetractGroup "b"
      = specSelectDiff demoRetractGroup "b" { value := "b", label := "B" } :=
  claim_C5.1 demoRetractGroup "b" { value := "b", label := "B" } rfl

/-! ## C8: inheritance is non-destructive -/

theorem isUndef_iff (v : JSVal) : isUndef v = true ↔ v = .undef := by
  cases v <;> simp [isUndef]

/-- Every key of the inheritance fold's output has an `undefined` state
value: the fold only ever inserts a child key after checking
`childValue === undefined`. -/
theorem inheritFold_keys (stepperName parent : String) (st : WizardState)
    (fields : List String) (changes : List (String × JSVal))
    (hinv : ∀ kk, recFind changes kk ≠ none → isUndef (st kk) = true) :
    ∀ kk, recFind (fields.foldl (fun changes field =>
        if isUndef (st (stepperName ++ "." ++ field))
            && ! isUndef (st (parent ++ "." ++ field)) then
          recSet changes (stepperName ++ "." ++ field) (st (parent ++ "." ++ field))
        else changes) changes) kk ≠ none → isUndef (st kk) = true := by
  induction fields generalizing changes with
  | nil => exact hinv
  | cons field rest ih =>
    simp only [List.foldl_cons]
    apply ih
    intro kk hk
    by_cases hcond : (isUndef (st (stepperName ++ "." ++ field))
        && ! isUndef (st (parent ++ "." ++ field))) = true
    · rw [if_pos hcond] at hk
      by_cases hkk : kk = stepperName ++ "." ++ field
      · subst hkk
        exact (Bool.and_eq_true _ _ |>.mp hcond).1
      · rw [recFind_recSet_other _ _ _ _ hkk] at hk
        exact hinv kk hk
    · rw [if_neg hcond] at hk
      exact hinv kk hk

/-- C8: `applyInheritance` is non-destructive — whatever the condition
evaluator and the relation table say, the returned map has no entry for
any key whose state value is present (not `undefined`); in particular a
child field that is already set is never proposed, regardless of the
parent's value. -/
theorem claim_C8 (stepperName : String) (st : WizardState)
    (ec : String → WizardState → Bool) (k : String) (hk : st k ≠ .undef) :
    recFind (applyInheritance stepperName st ec) k = none := by
  have hbuild : ∀ rel, recFind (inheritBuild stepperName rel st) k = none := by
    intro rel
    by_contra hc
    have := inheritFold_keys stepperName rel.parent st rel.fields []
      (fun kk hkk => absurd rfl hkk) k hc
    exact hk ((isUndef_iff _).mp this)
  unfold applyInheritance
  cases getInheritanceRelation stepperName with
  | none => rfl
  | some rel =>
    obtain ⟨child, parent, fields, cond, desc⟩ := rel
    cases cond with
    | none => exact hbuild _
    | some c =>
      by_cases hec : ec c st
      · simp only [hec, Bool.not_true, Bool.false_eq_true, if_false]
        exact hbuild _
      · simp only [Bool.not_eq_true] at hec
        simp only [hec, Bool.not_false, if_true]
        rfl

/-- C8, witness: with `stepper_y.run_current` already set,
`applyInheritance "stepper_y"` (with the real condition evaluator)
proposes nothing for that key even though the parent value differs. -/
theorem claim_C8_witness :
    recFind (applyInheritance "stepper_y" inheritDemoState
      (fun c s => evaluateCondition (some c) s)) "stepper_y.run_current" = none :=
  claim_C8 "stepper_y" inheritDemoState (fun c s => evaluateCondition (some c) s)
    "stepper_y.run_current" (fun hc => JSVal.noConfusion hc)

/-- A condition that is a single bare identifier evaluates to the
truthiness of the identifier's state value. -/
theorem evaluateCondition_bare_ident (k : String) (st : WizardState)
    (htok : tokenize k = some [.ident k, .eof]) (htrim : strTrim k = k) :
    evaluateCondition (some k) st = truthy (st k) := by
  have hne : k ≠ "" := by
    intro hc
    rw [hc] at htok
    exact Option.noConfusion htok (fun h => List.noConfusion h (fun h _ => Token.noConfusion h))
  have hguard : (strTrim k == "") = false := by
    rw [htrim]
    exact beq_eq_false_iff_ne.mpr hne
  unfold evaluateCondition
  simp only [hguard, Bool.false_eq_true, if_false, htok]
  rfl

/-- C2: a bare identifier condition evaluates to `false` exactly when the
key is absent (`undefined`), the empty string, the number `0`, or the
boolean `false`, and to `true` for every other value (states obey the
data-model invariant that `null` is never used as a value); in
particular `evaluate("x", {})` is `false`, `evaluate("not x", {})` is
`true`, `evaluate("x", {x:0})` is `false`, and `evaluate("x", {x:"0"})`
is `true`. -/
theorem claim_C2 :
    (∀ (k : String) (st : WizardState),
        tokenize k = some [.ident k, .eof] →
        strTrim k = k →
        st k ≠ .null →
        (evaluateCondition (some k) st = false ↔
          st k = .undef ∨ st k = .str "" ∨
          (∃ q, st k = .num q ∧ qEq q 0 = true) ∨ st k = .bool false))
    ∧ evaluateCondition (some "x") emptyState = false
    ∧ evaluateCondition (some "not x") emptyState = true
    ∧ evaluateCondition (some "x") stateX0 = false
    ∧ evaluateCondition (some "x") stateXStr0 = true := by
  refine ⟨?_, rfl, rfl, rfl, rfl⟩
  intro k st htok htrim hnull
  rw [evaluateCondition_bare_ident k st htok htrim]
  cases hv : st k with
  | undef => simp [truthy]
  | null => exact absurd hv hnull
  | bool b => cases b <;> simp [truthy]
  | num q =>
    simp only [truthy, Bool.not_eq_false', JSVal.num.injEq]
    constructor
    · intro hq
      exact Or.inr (Or.inr (Or.inl ⟨q, rfl, hq⟩))
    · intro h
      rcases h with h | h | ⟨q', hq', hz⟩ | h
      · exact JSVal.noConfusion h
      · exact JSVal.noConfusion h
      · cases hq'
        exact hz
      · exact JSVal.noConfusion h
  | str s =>
    constructor
    · intro hs
      refine Or.inr (Or.inl ?_)
      simp only [truthy, bne_eq_false_iff_eq] at hs
      rw [hs]
    · intro h
      rcases h with h | h | ⟨q', hq', hz⟩ | h
      · exact JSVal.noConfusion h
      · cases h
        rfl
      · exact JSVal.noConfusion hq'
      · exact JSVal.noConfusion h
  | list xs =>
    simp only [truthy]
    constructor
    · intro h
      exact Bool.noConfusion h
    · intro h
      rcases h with h | h | ⟨q', hq', hz⟩ | h
      · exact JSVal.noConfusion h
      · exact JSVal.noConfusion h
      · exact JSVal.noConfusion hq'
      · exact JSVal.noConfusion h

/-- C2, witness: the universal half of `claim_C2` applied at `k = "x"`
and the state `{x: 0}`, its hypotheses discharged by computation. -/
theorem claim_C2_witness : evaluateCondition (some "x") stateX0 = false :=
  (claim_C2.1 "x" stateX0 rfl rfl (fun hc => JSVal.noConfusion hc)).mpr
    (Or.inr (Or.inr (Or.inl ⟨⟨0, 1⟩, rfl, rfl⟩)))

/-! ## C1: the evaluator is total and fail-closed -/

/-- The parser always produces a boolean: the fuel supplied by
`evalTokens` is sufficient for any token list. -/
theorem evalTokens_total (st : WizardState) (ts : List Token) :
    (evalTokens st ts).isSome = true := by
  obtain ⟨v, rest, he, _, _⟩ :=
    parseStep_total st (condFuel ts) .orM .undef ts
      (by simp only [condFuel, modeCost]; omega)
  simp only [evalTokens, parseOr, he, Option.isSome_map']
  rfl

/-- C1, counterexample: the malformed condition `"true or ("` — it has an
unmatched opening bracket — evaluates to `true`, not `false`: the parser
recovers from the truncated right operand (which reads as `undefined`)
and `true || undefined` is truthy. -/
theorem claim_C1_cex :
    evaluateCondition (some "true or (") emptyState = true := rfl

/-- C1 (amended): the evaluator never propagates an exception — for every
condition string the tokenizer and the parser terminate normally within
their fuel, so `evaluate` always returns a boolean; an absent, empty, or
blank condition evaluates to `true`.  A malformed expression does not
raise either, but the parser recovers silently instead of failing, so a
malformed expression evaluates to whatever the recovered parse yields —
`"("` evaluates to `false`, but e.g. `"true or ("` evaluates to `true` —
rather than always to `false`. -/
theorem claim_C1 :
    (∀ st : WizardState, evaluateCondition none st = true)
    ∧ (∀ st : WizardState, evaluateCondition (some "") st = true)
    ∧ (∀ st : WizardState, evaluateCondition (some "   ") st = true)
    ∧ (∀ c : String, (tokenize c).isSome = true)
    ∧ (∀ (st : WizardState) (ts : List Token), (evalTokens st ts).isSome = true)
    ∧ (∀ st : WizardState, evaluateCondition (some "(") st = false) := by
  refine ⟨fun _ => rfl, fun _ => rfl, fun _ => rfl, tokenize_total, evalTokens_total,
    fun _ => rfl⟩

/-- A rule pass never touches the diff entry at a key its `setValues`
does not mention. -/
theorem applySetValues_find_of_not_mem (imp : Implication) (st : WizardState)
    (o : List String) (k : String) :
    ∀ (kvs : List (String × JSVal)) (res : ImplicationResult),
      k ∉ kvs.map Prod.fst →
      recFind (applySetValues imp st o kvs res).changedValues k
        = recFind res.changedValues k
  | [], _, _ => rfl
  | (k', v') :: kvs, res, h => by
    simp only [List.map_cons, List.mem_cons] at h
    push_neg at h
    obtain ⟨hk, hrest⟩ := h
    simp only [applySetValues]
    rw [applySetValues_find_of_not_mem imp st o k kvs _ hrest]
    by_cases h1 : (imp.allowOverride && o.contains k') = true
    · rw [if_pos h1]
    · rw [if_neg h1]
      by_cases h2 : strictEq (st k') v' = true
      · rw [if_pos h2]
      · rw [if_neg h2]
        exact recFind_recSet_other res.changedValues k' k v' hk

/-- A rule pass whose override-skip and churn-skip both fail for a key
records that key's proposed value in the diff, whatever diff it starts
from. -/
theorem applySetValues_find_writes (imp : Implication) (st : WizardState)
    (o : List String) (k : String) (v : JSVal)
    (hno : ¬(imp.allowOverride = true ∧ o.contains k = true))
    (hchurn : strictEq (st k) v = false) :
    ∀ (kvs : List (String × JSVal)) (res : ImplicationResult),
      recFind kvs k = some v →
      (kvs.map Prod.fst).Nodup →
      recFind (applySetValues imp st o kvs res).changedValues k = some v
  | [], _, hf, _ => by simp [recFind] at hf
  | (k', v') :: kvs, res, hf, hnd => by
    simp only [List.map_cons, List.nodup_cons] at hnd
    obtain ⟨hknm, hndt⟩ := hnd
    by_cases hkk : k' = k
    · subst hkk
      have hv : v' = v := by simpa [recFind] using hf
      subst hv
      simp only [applySetValues]
      have h1 : ¬ ((imp.allowOverride && o.contains k') = true) := by
        simp only [Bool.and_eq_true]
        exact hno
      rw [if_neg h1, if_neg (by simp [hchurn])]
      rw [applySetValues_find_of_not_mem imp st o k' kvs _ hknm]
      exact recFind_recSet_self res.changedValues k' v'
    · have hf' : recFind kvs k = some v := by simpa [recFind, hkk] using hf
      simp only [applySetValues]
      exact applySetValues_find_writes imp st o k v hno hchurn kvs _ hf' hndt

/-- C3, counterexample: two rules both fire (their conditions are
unconditional), both set `"leveling.type"` with different values, and the
low-priority rule's value — not the high-priority rule's — is the final
`changedValues` entry: the state already holds the high-priority value,
so the `state[key] === value` churn check (taken against the input
snapshot, not the accumulated diff) silently drops the high-priority
write, and merging the diff would *replace* the high-priority value with
the low-priority one. -/
theorem claim_C3_cex :
    evaluateCondition (some r1c.condition) c3State = true
    ∧ evaluateCondition (some r2c.condition) c3State = true
    ∧ r1c.priority < r2c.priority
    ∧ recFind r1c.setValues ("leveling.type") = some (.str "bed_tilt")
    ∧ recFind r2c.setValues ("leveling.type") = some (.str "z_tilt")
    ∧ strictEq (JSVal.str "bed_tilt") (JSVal.str "z_tilt") = false
    ∧ (applyImplicationsWith [r1c, r2c] c3State []).changedValues
        = [("leveling.type", .str "bed_tilt")] :=
  ⟨rfl, rfl, by decide, rfl, rfl, rfl, rfl⟩

/-- C3 (amended): when two rules both fire, both set the same key with
different values, **and the higher-priority rule's write is not itself
skipped** — the input snapshot does not already hold its value, and it is
not dropped by an `allowOverride`/user-override pair — then the final
`changedValues` entry for that key is the higher-priority rule's value
(ties broken by declaration order, the sort being stable).  Without the
two extra provisos the property fails (`claim_C3_cex`). -/
theorem claim_C3 (r1 r2 : Implication) (s : WizardState) (o : List String)
    (k : String) (v2 : JSVal)
    (hp : r1.priority ≤ r2.priority)
    (hc2 : evaluateCondition (some r2.condition) s = true)
    (hv2 : recFind r2.setValues k = some v2)
    (hnd : (r2.setValues.map Prod.fst).Nodup)
    (hno : ¬(r2.allowOverride = true ∧ o.contains k = true))
    (hchurn : strictEq (s k) v2 = false) :
    recFind (applyImplicationsWith [r1, r2] s o).changedValues k = some v2 := by
  have hsort : sortByPriority [r1, r2] = [r1, r2] := by
    simp only [sortByPriority, insertByPriority]
    rw [if_pos hp]
  unfold applyImplicationsWith
  rw [hsort]
  simp only [applyRules]
  rw [if_pos hc2]
  exact applySetValues_find_writes r2 s o k v2 hno hchurn r2.setValues _ hv2 hnd

/-- C3's theorem applied at the counterexample's rules over the empty
state (where no skip fires): there the higher-priority value does win. -/
theorem claim_C3_witness :
    recFind (applyImplicationsWith [r1c, r2c] emptyState []).changedValues
      ("leveling.type") = some (.str "z_tilt") :=
  claim_C3 r1c r2c emptyState [] ("leveling.type") (.str "z_tilt")
    (by decide) rfl rfl (by decide) (by decide) rfl

/-- JavaScript `v >= n` against a number literal is the numeric
comparison of `ToNumber(v)`, `false` on `NaN`. -/
theorem jsGe_num (v : JSVal) (q : Q) :
    jsGe v (.num q)
      = match toNumber v with
        | some x => qLe q x
        | none => false := by
  cases v with
  | undef => rfl
  | null => rfl
  | bool b => rfl
  | num r => rfl
  | str s =>
    simp only [jsGe, jsLe, toNumber, toPrim, primToNum]
    cases strToNum s <;> rfl
  | list xs =>
    simp only [jsGe, jsLe, toNumber, toPrim, primToNum]
    cases strToNum (jsArrJoin xs) <;> rfl

/-- On a condition that both regexes reject and that has no `' and '`
separator, the validator's simple evaluator is a bare truthy lookup. -/
theorem evalSimple_bare (k : String) (st : WizardState)
    (hne : (k == "") = false)
    (hge : geMatch k = none) (heq : eqMatch k = none)
    (hsp : splitOnAnd k = [k]) (htr : strTrim k = k) :
    evaluateSimpleCondition k st = truthy (st k) := by
  unfold evaluateSimpleCondition
  simp only [hne, Bool.false_eq_true, if_false, hge, heq, hsp, List.length_cons,
    List.length_nil, htr, Nat.lt_irrefl, if_false]

/-- On a bare-identifier condition the two evaluators agree. -/
theorem simple_agrees_bare (k : String) (st : WizardState)
    (hne : (k == "") = false)
    (hge : geMatch k = none) (heq : eqMatch k = none)
    (hsp : splitOnAnd k = [k]) (htr : strTrim k = k)
    (htok : tokenize k = some [.ident k, .eof]) :
    evaluateSimpleCondition k st = evaluateCondition (some k) st := by
  rw [evalSimple_bare k st hne hge heq hsp htr,
      evaluateCondition_bare_ident k st htok htr]

/-- On `"z_config.motor_count >= 2"` the two evaluators agree. -/
theorem simple_agrees_motor2 (st : WizardState) :
    evaluateSimpleCondition ("z_config.motor_count >= 2") st
      = evaluateCondition (some ("z_config.motor_count >= 2")) st := by
  have h1 : evaluateSimpleCondition ("z_config.motor_count >= 2") st
      = match toNumber (st ("z_config.motor_count")) with
        | some x => qLe ⟨2, 1⟩ x
        | none => false := rfl
  have h2 : evaluateCondition (some ("z_config.motor_count >= 2")) st
      = jsGe (st ("z_config.motor_count")) (.num ⟨2, 1⟩) := rfl
  rw [h1, h2, jsGe_num]

/-- On `"z_config.motor_count >= 3"` the two evaluators agree. -/
theorem simple_agrees_motor3 (st : WizardState) :
    evaluateSimpleCondition ("z_config.motor_count >= 3") st
      = evaluateCondition (some ("z_config.motor_count >= 3")) st := by
  have h1 : evaluateSimpleCondition ("z_config.motor_count >= 3") st
      = match toNumber (st ("z_config.motor_count")) with
        | some x => qLe ⟨3, 1⟩ x
        | none => false := rfl
  have h2 : evaluateCondition (some ("z_config.motor_count >= 3")) st
      = jsGe (st ("z_config.motor_count")) (.num ⟨3, 1⟩) := rfl
  rw [h1, h2, jsGe_num]

/-- On `"z_config.motor_count >= 4"` the two evaluators agree. -/
theorem simple_agrees_motor4 (st : WizardState) :
    evaluateSimpleCondition ("z_config.motor_count >= 4") st
      = evaluateCondition (some ("z_config.motor_count >= 4")) st := by
  have h1 : evaluateSimpleCondition ("z_config.motor_count >= 4") st
      = match toNumber (st ("z_config.motor_count")) with
        | some x => qLe ⟨4, 1⟩ x
        | none => false := rfl
  have h2 : evaluateCondition (some ("z_config.motor_count >= 4")) st
      = jsGe (st ("z_config.motor_count")) (.num ⟨4, 1⟩) := rfl
  rw [h1, h2, jsGe_num]

set_option maxRecDepth 8000 in
/-- C7, counterexample: on the one compound `requiredWhen` condition in
the field table (the toolboard CAN UUID field's), the two evaluators
disagree: with the toolboard enabled and its connection type `"can"`,
the full evaluator yields `true` but the validator's simple evaluator
yields `false` — its `==` regex is tried before the `' and '` split, so
it reads the whole condition as a single comparison whose field text is
`"mcu.toolboard.enabled and mcu.toolboard.connection_type"`, a key that
is absent from the state. -/
theorem claim_C7_cex :
    fdToolboardUuid ∈ FIELD_DEFINITIONS
    ∧ fdToolboardUuid.requiredWhen = some toolboardCanCond
    ∧ evaluateSimpleCondition toolboardCanCond s7 = false
    ∧ evaluateCondition (some toolboardCanCond) s7 = true :=
  ⟨by simp [FIELD_DEFINITIONS], rfl, rfl, rfl⟩

/-- C7 (amended): on every `requiredWhen` condition in the field table
*except* the one compound condition `toolboardCanCond`, the validator's
simple evaluator agrees with the full evaluator on every state (the
exception genuinely disagrees: `claim_C7_cex`). -/
theorem claim_C7 (c : String)
    (hd : ∃ d ∈ FIELD_DEFINITIONS, d.requiredWhen = some c)
    (hne : c ≠ toolboardCanCond) (st : WizardState) :
    evaluateSimpleCondition c st = evaluateCondition (some c) st := by
  obtain ⟨d, hdm, hdc⟩ := hd
  have hmem : c ∈ FIELD_DEFINITIONS.filterMap FieldDefinition.requiredWhen :=
    List.mem_filterMap.mpr ⟨d, hdm, hdc⟩
  have hlist : FIELD_DEFINITIONS.filterMap FieldDefinition.requiredWhen
      = ["printer.kinematics", "stepper_x.motor_port", "stepper_x.motor_port",
         "stepper_x.motor_port", "stepper_x.motor_port", "stepper_x.motor_port",
         "printer.kinematics", "stepper_y.motor_port", "stepper_y.motor_port",
         "stepper_y.motor_port", "stepper_y.motor_port", "stepper_y.motor_port",
         "printer.kinematics", "stepper_z.motor_port", "printer.awd_enabled",
         "printer.awd_enabled", "z_config.motor_count >= 2",
         "z_config.motor_count >= 3", "z_config.motor_count >= 4",
         "printer.kinematics", "extruder.motor_port", "heater_bed.heater_port",
         "heater_bed.heater_port", "extruder.motor_port", "extruder.heater_port",
         "extruder.heater_port", "mcu.toolboard.enabled", toolboardCanCond] := rfl
  rw [hlist] at hmem
  simp only [List.mem_cons, List.not_mem_nil, or_false] at hmem
  rcases hmem with rfl|rfl|rfl|rfl|rfl|rfl|rfl|rfl|rfl|rfl|rfl|rfl|rfl|rfl|rfl|rfl|rfl|rfl|rfl|rfl|rfl|rfl|rfl|rfl|rfl|rfl|rfl|rfl
  all_goals first
    | exact absurd rfl hne
    | exact simple_agrees_motor2 st
    | exact simple_agrees_motor3 st
    | exact simple_agrees_motor4 st
    | exact simple_agrees_bare _ st rfl rfl rfl rfl rfl rfl

/-- C7's theorem applied at the X motor port field's bare condition over
the empty state. -/
theorem claim_C7_witness :
    evaluateSimpleCondition ("printer.kinematics") emptyState
      = evaluateCondition (some ("printer.kinematics")) emptyState :=
  claim_C7 ("printer.kinematics")
    ⟨fdXMotorPort, by simp [FIELD_DEFINITIONS], rfl⟩ (by decide) emptyState

/-- The spec's filled test is the negation of the source's `isEmpty`. -/
theorem specFilled_eq_not_isEmpty (v : JSVal) : specFilled v = ! isEmpty v := by
  cases v <;> rfl

/-- C9: for every state, `completionPercent` is
`round(100 * filledCount / totalCount)` over exactly the unconditionally
required rules — which are the kinematics and mainboard fields, neither
of which carries a `requiredWhen` condition, so `requiredWhen`-only
fields are excluded from numerator and denominator. -/
theorem claim_C9 :
    (∀ st : WizardState,
      (getValidationSummary st).completionPercent = specCompletion st)
    ∧ specRequiredRules = [fdKinematics, fdBoardType]
    ∧ fdKinematics.requiredWhen = none
    ∧ fdBoardType.requiredWhen = none := by
  refine ⟨?_, rfl, rfl, rfl⟩
  intro st
  have hred : (getValidationSummary st).completionPercent
      = jsRound (qMul (qDiv
          (natToQ ((List.filter (fun f => ! isEmpty (st f.key))
            [fdKinematics, fdBoardType]).length))
          (natToQ 2)) 100) := rfl
  have hspec : specCompletion st
      = jsRound (qDiv
          (qMul 100 (natToQ ((List.filter (fun f => specFilled (st f.key))
            [fdKinematics, fdBoardType]).length)))
          (natToQ 2)) := rfl
  rw [hred, hspec]
  simp only [specFilled_eq_not_isEmpty]
  by_cases h1 : isEmpty (st fdKinematics.key) = true
  · by_cases h2 : isEmpty (st fdBoardType.key) = true
    · simp only [List.filter_cons, List.filter_nil, h1, h2, Bool.not_true,
        Bool.false_eq_true, if_false]
      decide
    · simp only [List.filter_cons, List.filter_nil, h1,
        eq_false_of_ne_true h2, Bool.not_true, Bool.not_false,
        Bool.false_eq_true, if_false, if_true]
      decide
  · by_cases h2 : isEmpty (st fdBoardType.key) = true
    · simp only [List.filter_cons, List.filter_nil, eq_false_of_ne_true h1, h2,
        Bool.not_true, Bool.not_false, Bool.false_eq_true, if_false, if_true]
      decide
    · simp only [List.filter_cons, List.filter_nil, eq_false_of_ne_true h1,
        eq_false_of_ne_true h2, Bool.not_false, if_true]
      decide

/-- Everything `validateField` reports carries the field's own key, and
it reports a range violation (`atLeast`/`atMost`) only when the state
value's runtime type is number. -/
theorem validateField_cases (d : FieldDefinition) (st : WizardState) (e : FieldValidation)
    (he : validateField d st = some e) :
    e.field = d.key ∧ (isRangeMsg e.message = true → isNum (st d.key) = true) := by
  simp only [validateField] at he
  repeat' split at he
  all_goals
    first
      | exact Option.noConfusion he
      | (cases Option.some.inj he
         refine ⟨rfl, fun h => ?_⟩
         first
           | exact Bool.noConfusion h
           | simp_all [isNum])

/-- Exclusive-group errors are never range violations. -/
theorem groupErrors_not_range (st : WizardState) (e : FieldValidation)
    (he : e ∈ validateExclusiveGroups st) : isRangeMsg e.message = false := by
  unfold validateExclusiveGroups at he
  obtain ⟨g, _, hge⟩ := List.mem_filterMap.mp he
  split at hge
  · cases Option.some.inj hge
    rfl
  · exact absurd hge (by simp)

/-- C10: a field rule's min/max range check is enforced only on values
whose runtime type is number — whenever the field's value is present but
not a number, `validateState` emits no range-violation error
(`must be at least` / `must be at most`) for that field, regardless of
the value's numeric reading. -/
theorem claim_C10 (d : FieldDefinition) (hd : d ∈ FIELD_DEFINITIONS)
    (st : WizardState)
    (hpres : isEmpty (st d.key) = false)
    (hnum : isNum (st d.key) = false) :
    ∀ e ∈ (validateState st).errors, e.field = d.key →
      isRangeMsg e.message = false := by
  intro e he hef
  by_contra hrc
  rw [Bool.not_eq_false] at hrc
  have he' : e ∈ (FIELD_DEFINITIONS.filterMap
        (fun d' => validateField d' st)).filter fvIsError
      ++ validateExclusiveGroups st
      ++ (detectConflicts st).filterMap (fun c =>
          match c.rule.severity with
          | .error => some { field := conflictField c.rule, valid := false,
                             message := some (.conflictText c.rule.message),
                             severity := FVSeverity.error }
          | _ => none) := he
  rcases List.mem_append.mp he' with hin | hin
  · rcases List.mem_append.mp hin with hin2 | hin2
    · obtain ⟨d', hd', hvf⟩ := List.mem_filterMap.mp (List.mem_of_mem_filter hin2)
      obtain ⟨hfield, hrange⟩ := validateField_cases d' st e hvf
      have hkey : d'.key = d.key := hfield ▸ hef
      have : isNum (st d.key) = true := hkey ▸ hrange hrc
      rw [hnum] at this
      exact Bool.noConfusion this
    · rw [groupErrors_not_range st e hin2] at hrc
      exact Bool.noConfusion hrc
  · obtain ⟨c, _, hce⟩ := List.mem_filterMap.mp hin
    split at hce
    · cases Option.some.inj hce
      exact Bool.noConfusion hrc
    · exact absurd hce (by simp)

/-- C10's theorem applied at the X run-current field (min 0.1, max 3)
with the string value `"9999"`: the value is present, not a number, its
numeric reading 9999 exceeds the max, and no range error mentions the
field. -/
theorem claim_C10_witness :
    isEmpty (c10State fdXRunCurrent.key) = false
    ∧ isNum (c10State fdXRunCurrent.key) = false
    ∧ toNumber (c10State fdXRunCurrent.key) = some ⟨9999, 1⟩
    ∧ fdXRunCurrent.max = some 3
    ∧ qLt 3 ⟨9999, 1⟩ = true
    ∧ ∀ e ∈ (validateState c10State).errors, e.field = fdXRunCurrent.key →
        isRangeMsg e.message = false :=
  ⟨rfl, rfl, rfl, rfl, rfl,
    claim_C10 fdXRunCurrent (by simp [FIELD_DEFINITIONS]) c10State rfl rfl⟩

theorem oElse_none_left (b : Option JSVal) : oElse none b = b := rfl

theorem oElse_none_right (a : Option JSVal) : oElse a none = a := by
  cases a <;> rfl

theorem oElse_some (w : JSVal) (b : Option JSVal) : oElse (some w) b = some w := rfl

theorem oElse_assoc (a b c : Option JSVal) :
    oElse (oElse a b) c = oElse a (oElse b c) := by
  cases a <;> rfl

/-- One rule pass leaves, at each key, exactly its effective write (or
else the incoming diff's entry). -/
theorem applySetValues_find (imp : Implication) (st : WizardState) (o : List String)
    (k : String) :
    ∀ (kvs : List (String × JSVal)) (res : ImplicationResult),
      recFind (applySetValues imp st o kvs res).changedValues k
        = oElse (lastWrite imp st o k kvs) (recFind res.changedValues k)
  | [], _ => rfl
  | (k', v) :: kvs, res => by
    simp only [applySetValues, lastWrite]
    by_cases hov : (imp.allowOverride && o.contains k') = true
    · rw [if_pos hov]
      rw [applySetValues_find imp st o k kvs _]
      have hif : (if k' = k ∧ ¬((imp.allowOverride && o.contains k') = true)
          ∧ ¬(strictEq (st k') v = true) then some v else none) = none :=
        if_neg (fun hc => hc.2.1 hov)
      rw [hif, oElse_none_right]
    · rw [if_neg hov]
      by_cases hch : strictEq (st k') v = true
      · rw [if_pos hch]
        rw [applySetValues_find imp st o k kvs res]
        have hif : (if k' = k ∧ ¬((imp.allowOverride && o.contains k') = true)
            ∧ ¬(strictEq (st k') v = true) then some v else none) = none :=
          if_neg (fun hc => hc.2.2 hch)
        rw [hif, oElse_none_right]
      · rw [if_neg hch]
        rw [applySetValues_find imp st o k kvs _]
        by_cases hk : k' = k
        · have hif : (if k' = k ∧ ¬((imp.allowOverride && o.contains k') = true)
              ∧ ¬(strictEq (st k') v = true) then some v else none) = some v :=
            if_pos ⟨hk, hov, hch⟩
          rw [hif]
          cases hlw : lastWrite imp st o k kvs with
          | some w => rfl
          | none =>
            simp only [oElse_none_left, oElse_some]
            subst hk
            exact recFind_recSet_self res.changedValues k' v
        · have hif : (if k' = k ∧ ¬((imp.allowOverride && o.contains k') = true)
              ∧ ¬(strictEq (st k') v = true) then some v else none) = none :=
            if_neg (fun hc => hk hc.1)
          rw [hif, oElse_none_right]
          cases hlw : lastWrite imp st o k kvs with
          | some w => rfl
          | none =>
            simp only [oElse_none_left]
            exact recFind_recSet_other res.changedValues k' k v (fun hc => hk hc.symm)

/-- The whole pass leaves, at each key, exactly the rules' effective
write (or else the incoming diff's entry). -/
theorem applyRules_find (st : WizardState) (o : List String) (k : String) :
    ∀ (rs : List Implication) (res : ImplicationResult),
      recFind (applyRules st o rs res).changedValues k
        = oElse (rulesWrite st o k rs) (recFind res.changedValues k)
  | [], _ => rfl
  | r :: rs, res => by
    simp only [applyRules, rulesWrite]
    by_cases hc : evaluateCondition (some r.condition) st = true
    · rw [if_pos hc]
      rw [applyRules_find st o k rs _]
      rw [applySetValues_find r st o k r.setValues res]
      have hrw : ruleWrite st o k r = lastWrite r st o k r.setValues := if_pos hc
      rw [hrw, oElse_assoc]
    · rw [if_neg hc]
      rw [applyRules_find st o k rs res]
      have hrw : ruleWrite st o k r = none := if_neg hc
      rw [hrw, oElse_none_right]

/-- The diff `applyImplications` returns holds, at each key, exactly the
sorted table's effective write. -/
theorem applyImplications_find (st : WizardState) (o : List String) (k : String) :
    recFind (applyImplications st o).changedValues k
      = rulesWrite st o k (sortByPriority IMPLICATIONS) := by
  unfold applyImplications applyImplicationsWith
  rw [applyRules_find]
  exact oElse_none_right _

/-- Merging the resolver's diff reads back, at each key, the effective
write when there is one and the original value otherwise. -/
theorem mergeState_key (st : WizardState) (o : List String) (k : String) :
    mergeState st (applyImplications st o).changedValues k
      = match rulesWrite st o k (sortByPriority IMPLICATIONS) with
        | some w => w
        | none => st k := by
  unfold mergeState
  rw [applyImplications_find]

/-- A rule pass writes nothing at a key its `setValues` never mention. -/
theorem lastWrite_not_mem (imp : Implication) (st : WizardState) (o : List String)
    (k : String) :
    ∀ kvs : List (String × JSVal), k ∉ kvs.map Prod.fst →
      lastWrite imp st o k kvs = none
  | [], _ => rfl
  | (k', v) :: kvs, h => by
    simp only [List.map_cons, List.mem_cons] at h
    push_neg at h
    simp only [lastWrite]
    rw [lastWrite_not_mem imp st o k kvs h.2, oElse_none_left,
      if_neg (fun hc => h.1 hc.1.symm)]

/-- A rule whose `setValues` never mention a key writes nothing there. -/
theorem ruleWrite_not_mem (st : WizardState) (o : List String) (k : String)
    (imp : Implication) (h : k ∉ imp.setValues.map Prod.fst) :
    ruleWrite st o k imp = none := by
  unfold ruleWrite
  rw [lastWrite_not_mem imp st o k imp.setValues h]
  exact ite_self none

/-- Dropping a head rule that never mentions the key. -/
theorem rulesWrite_cons_skip (st : WizardState) (o : List String) (k : String)
    (r : Implication) (rs : List Implication) (h : k ∉ r.setValues.map Prod.fst) :
    rulesWrite st o k (r :: rs) = rulesWrite st o k rs := by
  simp only [rulesWrite]
  rw [ruleWrite_not_mem st o k r h]
  exact oElse_none_right _

/-- A rule pass all of whose proposed writes are skipped (by override or
churn) leaves the diff untouched. -/
theorem applySetValues_changed_of_skip (imp : Implication) (st : WizardState)
    (o : List String) :
    ∀ (kvs : List (String × JSVal)) (res : ImplicationResult),
      (∀ kv ∈ kvs, (imp.allowOverride && o.contains kv.1) = true
        ∨ strictEq (st kv.1) kv.2 = true) →
      (applySetValues imp st o kvs res).changedValues = res.changedValues
  | [], _, _ => rfl
  | (k', v) :: kvs, res, h => by
    have hh := h (k', v) (List.mem_cons_self _ _)
    have ht : ∀ kv ∈ kvs, (imp.allowOverride && o.contains kv.1) = true
        ∨ strictEq (st kv.1) kv.2 = true :=
      fun kv hkv => h kv (List.mem_cons_of_mem _ hkv)
    simp only [applySetValues]
    rcases hh with hov | hch
    · rw [if_pos hov]
      exact applySetValues_changed_of_skip imp st o kvs _ ht
    · by_cases hov : (imp.allowOverride && o.contains k') = true
      · rw [if_pos hov]
        exact applySetValues_changed_of_skip imp st o kvs _ ht
      · rw [if_neg hov, if_pos hch]
        exact applySetValues_changed_of_skip imp st o kvs res ht

/-- A pass in which every firing rule's proposed writes are all skipped
leaves the diff untouched. -/
theorem applyRules_changed_of_skip (st : WizardState) (o : List String) :
    ∀ (rs : List Implication) (res : ImplicationResult),
      (∀ r ∈ rs, evaluateCondition (some r.condition) st = true →
        ∀ kv ∈ r.setValues, (r.allowOverride && o.contains kv.1) = true
          ∨ strictEq (st kv.1) kv.2 = true) →
      (applyRules st o rs res).changedValues = res.changedValues
  | [], _, _ => rfl
  | r :: rs, res, h => by
    have ht : ∀ r' ∈ rs, evaluateCondition (some r'.condition) st = true →
        ∀ kv ∈ r'.setValues, (r'.allowOverride && o.contains kv.1) = true
          ∨ strictEq (st kv.1) kv.2 = true :=
      fun r' hr' => h r' (List.mem_cons_of_mem _ hr')
    simp only [applyRules]
    by_cases hc : evaluateCondition (some r.condition) st = true
    · rw [if_pos hc]
      rw [applyRules_changed_of_skip st o rs _ ht]
      exact applySetValues_changed_of_skip r st o r.setValues res
        (h r (List.mem_cons_self _ _) hc)
    · rw [if_neg hc]
      exact applyRules_changed_of_skip st o rs res ht

/-- `===` against two different string literals cannot both hold. -/
theorem strictEq_str_excl (v : JSVal) (s1 s2 : String) (h12 : s1 ≠ s2)
    (h1 : strictEq v (.str s1) = true) : strictEq v (.str s2) = false := by
  cases v with
  | str s =>
    simp only [strictEq, beq_iff_eq] at h1
    subst h1
    exact beq_eq_false_iff_ne.mpr h12
  | undef => rfl
  | null => rfl
  | bool b => rfl
  | num q => rfl
  | list xs => rfl

/-- `===` against two numerically different literals cannot both hold on
a well-formed number value. -/
theorem strictEq_num_excl (v : JSVal) (hwf : numWF v) (q1 q2 : Q)
    (h12 : q1.num * (q2.den : Int) ≠ q2.num * (q1.den : Int))
    (h1 : strictEq v (.num q1) = true) : strictEq v (.num q2) = false := by
  cases v with
  | num p =>
    have hd : 0 < p.den := hwf
    simp only [strictEq, qEq, beq_iff_eq] at h1 ⊢
    rw [beq_eq_false_iff_ne]
    intro h2
    have hpd : (p.den : Int) ≠ 0 := by exact_mod_cast hd.ne'
    apply h12
    apply mul_left_cancel₀ hpd
    linear_combination (q1.den : Int) * h2 - (q2.den : Int) * h1
  | undef => rfl
  | null => rfl
  | bool b => rfl
  | str s => rfl
  | list xs => rfl

/-- `&&` of two parsed boolean comparisons. -/
theorem truthy_jsAnd_bools (x y : Bool) :
    truthy (jsAnd (.bool x) (.bool y)) = (x && y) := by
  cases x <;> rfl

/-- The sorted built-in table: the two priority −1 rules first (stably),
then the priority-0 rules in declaration order. -/
theorem sortByPriority_IMPLICATIONS :
    sortByPriority IMPLICATIONS
      = [impNonAwd, impToolboardDefaults,
         impCorexyAwd, impHybridAwd, impTapZeroOffsets, impBeaconContact,
         impCartographerTouch, impBltouchHoming, impTapHoming,
         impZ2Tilt, impZ3Tilt, impZ4Qgl, impSensorlessX, impSensorlessY,
         impSafeZHome] := rfl

/-- A rule list none of whose rules mention a key writes nothing there. -/
theorem rulesWrite_none (st : WizardState) (o : List String) (k : String) :
    ∀ rs : List Implication, (∀ r ∈ rs, k ∉ r.setValues.map Prod.fst) →
      rulesWrite st o k rs = none
  | [], _ => rfl
  | r :: rs, h => by
    rw [rulesWrite_cons_skip st o k r rs (h r (List.mem_cons_self _ _)),
      rulesWrite_none st o k rs (fun r' hr' => h r' (List.mem_cons_of_mem _ hr'))]

/-- A key no rule of the built-in table writes reads back unchanged
after the merge. -/
theorem mergeState_no_write (st : WizardState) (o : List String) (k : String)
    (h : ∀ r ∈ sortByPriority IMPLICATIONS, k ∉ r.setValues.map Prod.fst) :
    mergeState st (applyImplications st o).changedValues k = st k := by
  rw [mergeState_key, rulesWrite_none st o k _ h]

/-- Dropping a head entry whose key differs from the query. -/
theorem lastWrite_cons_skip (imp : Implication) (st : WizardState) (o : List String)
    (k k' : String) (v : JSVal) (kvs : List (String × JSVal)) (h : k' ≠ k) :
    lastWrite imp st o k ((k', v) :: kvs) = lastWrite imp st o k kvs := by
  simp only [lastWrite]
  rw [if_neg (fun hc => h hc.1), oElse_none_right]

/-- The effective write of a pass whose only entry for the key heads the
list. -/
theorem lastWrite_head (imp : Implication) (st : WizardState) (o : List String)
    (k : String) (v : JSVal) (kvs : List (String × JSVal))
    (h : k ∉ kvs.map Prod.fst) :
    lastWrite imp st o k ((k, v) :: kvs)
      = if ¬((imp.allowOverride && o.contains k) = true)
          ∧ ¬(strictEq (st k) v = true)
        then some v else none := by
  simp only [lastWrite]
  rw [lastWrite_not_mem imp st o k kvs h, oElse_none_left]
  simp only [eq_self_iff_true, true_and]

/-- The built-in table's effective write at `printer.awd_enabled`. -/
theorem rulesWrite_awd (st : WizardState) (o : List String) :
    rulesWrite st o ("printer.awd_enabled") (sortByPriority IMPLICATIONS)
      = oElse (oElse (ruleWrite st o ("printer.awd_enabled") impHybridAwd)
          (ruleWrite st o ("printer.awd_enabled") impCorexyAwd))
          (ruleWrite st o ("printer.awd_enabled") impNonAwd) := by
  rw [sortByPriority_IMPLICATIONS]
  simp only [rulesWrite]
  rw [ruleWrite_not_mem st o ("printer.awd_enabled") impToolboardDefaults (by decide),
      ruleWrite_not_mem st o ("printer.awd_enabled") impTapZeroOffsets (by decide),
      ruleWrite_not_mem st o ("printer.awd_enabled") impBeaconContact (by decide),
      ruleWrite_not_mem st o ("printer.awd_enabled") impCartographerTouch (by decide),
      ruleWrite_not_mem st o ("printer.awd_enabled") impBltouchHoming (by decide),
      ruleWrite_not_mem st o ("printer.awd_enabled") impTapHoming (by decide),
      ruleWrite_not_mem st o ("printer.awd_enabled") impZ2Tilt (by decide),
      ruleWrite_not_mem st o ("printer.awd_enabled") impZ3Tilt (by decide),
      ruleWrite_not_mem st o ("printer.awd_enabled") impZ4Qgl (by decide),
      ruleWrite_not_mem st o ("printer.awd_enabled") impSensorlessX (by decide),
      ruleWrite_not_mem st o ("printer.awd_enabled") impSensorlessY (by decide),
      ruleWrite_not_mem st o ("printer.awd_enabled") impSafeZHome (by decide)]
  simp only [oElse_none_left, oElse_none_right]

/-- The built-in table's effective write at `probe.x_offset`. -/
theorem rulesWrite_xoff (st : WizardState) (o : List String) :
    rulesWrite st o ("probe.x_offset") (sortByPriority IMPLICATIONS)
      = ruleWrite st o ("probe.x_offset") impTapZeroOffsets := by
  rw [sortByPriority_IMPLICATIONS]
  simp only [rulesWrite]
  rw [ruleWrite_not_mem st o ("probe.x_offset") impNonAwd (by decide),
      ruleWrite_not_mem st o ("probe.x_offset") impToolboardDefaults (by decide),
      ruleWrite_not_mem st o ("probe.x_offset") impCorexyAwd (by decide),
      ruleWrite_not_mem st o ("probe.x_offset") impHybridAwd (by decide),
      ruleWrite_not_mem st o ("probe.x_offset") impBeaconContact (by decide),
      ruleWrite_not_mem st o ("probe.x_offset") impCartographerTouch (by decide),
      ruleWrite_not_mem st o ("probe.x_offset") impBltouchHoming (by decide),
      ruleWrite_not_mem st o ("probe.x_offset") impTapHoming (by decide),
      ruleWrite_not_mem st o ("probe.x_offset") impZ2Tilt (by decide),
      ruleWrite_not_mem st o ("probe.x_offset") impZ3Tilt (by decide),
      ruleWrite_not_mem st o ("probe.x_offset") impZ4Qgl (by decide),
      ruleWrite_not_mem st o ("probe.x_offset") impSensorlessX (by decide),
      ruleWrite_not_mem st o ("probe.x_offset") impSensorlessY (by decide),
      ruleWrite_not_mem st o ("probe.x_offset") impSafeZHome (by decide)]
  simp only [oElse_none_left, oElse_none_right]

/-- The built-in table's effective write at `probe.y_offset`. -/
theorem rulesWrite_yoff (st : WizardState) (o : List String) :
    rulesWrite st o ("probe.y_offset") (sortByPriority IMPLICATIONS)
      = ruleWrite st o ("probe.y_offset") impTapZeroOffsets := by
  rw [sortByPriority_IMPLICATIONS]
  simp only [rulesWrite]
  rw [ruleWrite_not_mem st o ("probe.y_offset") impNonAwd (by decide),
      ruleWrite_not_mem st o ("probe.y_offset") impToolboardDefaults (by decide),
      ruleWrite_not_mem st o ("probe.y_offset") impCorexyAwd (by decide),
      ruleWrite_not_mem st o ("probe.y_offset") impHybridAwd (by decide),
      ruleWrite_not_mem st o ("probe.y_offset") impBeaconContact (by decide),
      ruleWrite_not_mem st o ("probe.y_offset") impCartographerTouch (by decide),
      ruleWrite_not_mem st o ("probe.y_offset") impBltouchHoming (by decide),
      ruleWrite_not_mem st o ("probe.y_offset") impTapHoming (by decide),
      ruleWrite_not_mem st o ("probe.y_offset") impZ2Tilt (by decide),
      ruleWrite_not_mem st o ("probe.y_offset") impZ3Tilt (by decide),
      ruleWrite_not_mem st o ("probe.y_offset") impZ4Qgl (by decide),
      ruleWrite_not_mem st o ("probe.y_offset") impSensorlessX (by decide),
      ruleWrite_not_mem st o ("probe.y_offset") impSensorlessY (by decide),
      ruleWrite_not_mem st o ("probe.y_offset") impSafeZHome (by decide)]
  simp only [oElse_none_left, oElse_none_right]

/-- The built-in table's effective write at `homing.homing_method`. -/
theorem rulesWrite_hm (st : WizardState) (o : List String) :
    rulesWrite st o ("homing.homing_method") (sortByPriority IMPLICATIONS)
      = oElse (oElse (oElse (ruleWrite st o ("homing.homing_method") impTapHoming)
          (ruleWrite st o ("homing.homing_method") impBltouchHoming))
          (ruleWrite st o ("homing.homing_method") impCartographerTouch))
          (ruleWrite st o ("homing.homing_method") impBeaconContact) := by
  rw [sortByPriority_IMPLICATIONS]
  simp only [rulesWrite]
  rw [ruleWrite_not_mem st o ("homing.homing_method") impNonAwd (by decide),
      ruleWrite_not_mem st o ("homing.homing_method") impToolboardDefaults (by decide),
      ruleWrite_not_mem st o ("homing.homing_method") impCorexyAwd (by decide),
      ruleWrite_not_mem st o ("homing.homing_method") impHybridAwd (by decide),
      ruleWrite_not_mem st o ("homing.homing_method") impTapZeroOffsets (by decide),
      ruleWrite_not_mem st o ("homing.homing_method") impZ2Tilt (by decide),
      ruleWrite_not_mem st o ("homing.homing_method") impZ3Tilt (by decide),
      ruleWrite_not_mem st o ("homing.homing_method") impZ4Qgl (by decide),
      ruleWrite_not_mem st o ("homing.homing_method") impSensorlessX (by decide),
      ruleWrite_not_mem st o ("homing.homing_method") impSensorlessY (by decide),
      ruleWrite_not_mem st o ("homing.homing_method") impSafeZHome (by decide)]
  simp only [oElse_none_left, oElse_none_right]

/-- The built-in table's effective write at `leveling.type`. -/
theorem rulesWrite_lt (st : WizardState) (o : List String) :
    rulesWrite st o ("leveling.type") (sortByPriority IMPLICATIONS)
      = oElse (oElse (ruleWrite st o ("leveling.type") impZ4Qgl)
          (ruleWrite st o ("leveling.type") impZ3Tilt))
          (ruleWrite st o ("leveling.type") impZ2Tilt) := by
  rw [sortByPriority_IMPLICATIONS]
  simp only [rulesWrite]
  rw [ruleWrite_not_mem st o ("leveling.type") impNonAwd (by decide),
      ruleWrite_not_mem st o ("leveling.type") impToolboardDefaults (by decide),
      ruleWrite_not_mem st o ("leveling.type") impCorexyAwd (by decide),
      ruleWrite_not_mem st o ("leveling.type") impHybridAwd (by decide),
      ruleWrite_not_mem st o ("leveling.type") impTapZeroOffsets (by decide),
      ruleWrite_not_mem st o ("leveling.type") impBeaconContact (by decide),
      ruleWrite_not_mem st o ("leveling.type") impCartographerTouch (by decide),
      ruleWrite_not_mem st o ("leveling.type") impBltouchHoming (by decide),
      ruleWrite_not_mem st o ("leveling.type") impTapHoming (by decide),
      ruleWrite_not_mem st o ("leveling.type") impSensorlessX (by decide),
      ruleWrite_not_mem st o ("leveling.type") impSensorlessY (by decide),
      ruleWrite_not_mem st o ("leveling.type") impSafeZHome (by decide)]
  simp only [oElse_none_left, oElse_none_right]

/-- The built-in table's effective write at `extruder.motor_location`. -/
theorem rulesWrite_eml (st : WizardState) (o : List String) :
    rulesWrite st o ("extruder.motor_location") (sortByPriority IMPLICATIONS)
      = ruleWrite st o ("extruder.motor_location") impToolboardDefaults := by
  rw [sortByPriority_IMPLICATIONS]
  simp only [rulesWrite]
  rw [ruleWrite_not_mem st o ("extruder.motor_location") impNonAwd (by decide),
      ruleWrite_not_mem st o ("extruder.motor_location") impCorexyAwd (by decide),
      ruleWrite_not_mem st o ("extruder.motor_location") impHybridAwd (by decide),
      ruleWrite_not_mem st o ("extruder.motor_location") impTapZeroOffsets (by decide),
      ruleWrite_not_mem st o ("extruder.motor_location") impBeaconContact (by decide),
      ruleWrite_not_mem st o ("extruder.motor_location") impCartographerTouch (by decide),
      ruleWrite_not_mem st o ("extruder.motor_location") impBltouchHoming (by decide),
      ruleWrite_not_mem st o ("extruder.motor_location") impTapHoming (by decide),
      ruleWrite_not_mem st o ("extruder.motor_location") impZ2Tilt (by decide),
      ruleWrite_not_mem st o ("extruder.motor_location") impZ3Tilt (by decide),
      ruleWrite_not_mem st o ("extruder.motor_location") impZ4Qgl (by decide),
      ruleWrite_not_mem st o ("extruder.motor_location") impSensorlessX (by decide),
      ruleWrite_not_mem st o ("extruder.motor_location") impSensorlessY (by decide),
      ruleWrite_not_mem st o ("extruder.motor_location") impSafeZHome (by decide)]
  simp only [oElse_none_left, oElse_none_right]

/-- The built-in table's effective write at `fans.part_cooling.location`. -/
theorem rulesWrite_fpc (st : WizardState) (o : List String) :
    rulesWrite st o ("fans.part_cooling.location") (sortByPriority IMPLICATIONS)
      = ruleWrite st o ("fans.part_cooling.location") impToolboardDefaults := by
  rw [sortByPriority_IMPLICATIONS]
  simp only [rulesWrite]
  rw [ruleWrite_not_mem st o ("fans.part_cooling.location") impNonAwd (by decide),
      ruleWrite_not_mem st o ("fans.part_cooling.location") impCorexyAwd (by decide),
      ruleWrite_not_mem st o ("fans.part_cooling.location") impHybridAwd (by decide),
      ruleWrite_not_mem st o ("fans.part_cooling.location") impTapZeroOffsets (by decide),
      ruleWrite_not_mem st o ("fans.part_cooling.location") impBeaconContact (by decide),
      ruleWrite_not_mem st o ("fans.part_cooling.location") impCartographerTouch (by decide),
      ruleWrite_not_mem st o ("fans.part_cooling.location") impBltouchHoming (by decide),
      ruleWrite_not_mem st o ("fans.part_cooling.location") impTapHoming (by decide),
      ruleWrite_not_mem st o ("fans.part_cooling.location") impZ2Tilt (by decide),
      ruleWrite_not_mem st o ("fans.part_cooling.location") impZ3Tilt (by decide),
      ruleWrite_not_mem st o ("fans.part_cooling.location") impZ4Qgl (by decide),
      ruleWrite_not_mem st o ("fans.part_cooling.location") impSensorlessX (by decide),
      ruleWrite_not_mem st o ("fans.part_cooling.location") impSensorlessY (by decide),
      ruleWrite_not_mem st o ("fans.part_cooling.location") impSafeZHome (by decide)]
  simp only [oElse_none_left, oElse_none_right]

/-- The built-in table's effective write at `fans.hotend.location`. -/
theorem rulesWrite_fhe (st : WizardState) (o : List String) :
    rulesWrite st o ("fans.hotend.location") (sortByPriority IMPLICATIONS)
      = ruleWrite st o ("fans.hotend.location") impToolboardDefaults := by
  rw [sortByPriority_IMPLICATIONS]
  simp only [rulesWrite]
  rw [ruleWrite_not_mem st o ("fans.hotend.location") impNonAwd (by decide),
      ruleWrite_not_mem st o ("fans.hotend.location") impCorexyAwd (by decide),
      ruleWrite_not_mem st o ("fans.hotend.location") impHybridAwd (by decide),
      ruleWrite_not_mem st o ("fans.hotend.location") impTapZeroOffsets (by decide),
      ruleWrite_not_mem st o ("fans.hotend.location") impBeaconContact (by decide),
      ruleWrite_not_mem st o ("fans.hotend.location") impCartographerTouch (by decide),
      ruleWrite_not_mem st o ("fans.hotend.location") impBltouchHoming (by decide),
      ruleWrite_not_mem st o ("fans.hotend.location") impTapHoming (by decide),
      ruleWrite_not_mem st o ("fans.hotend.location") impZ2Tilt (by decide),
      ruleWrite_not_mem st o ("fans.hotend.location") impZ3Tilt (by decide),
      ruleWrite_not_mem st o ("fans.hotend.location") impZ4Qgl (by decide),
      ruleWrite_not_mem st o ("fans.hotend.location") impSensorlessX (by decide),
      ruleWrite_not_mem st o ("fans.hotend.location") impSensorlessY (by decide),
      ruleWrite_not_mem st o ("fans.hotend.location") impSafeZHome (by decide)]
  simp only [oElse_none_left, oElse_none_right]

/-- The built-in table's effective write at `stepper_x.endstop_pin`. -/
theorem rulesWrite_sxe (st : WizardState) (o : List String) :
    rulesWrite st o ("stepper_x.endstop_pin") (sortByPriority IMPLICATIONS)
      = ruleWrite st o ("stepper_x.endstop_pin") impSensorlessX := by
  rw [sortByPriority_IMPLICATIONS]
  simp only [rulesWrite]
  rw [ruleWrite_not_mem st o ("stepper_x.endstop_pin") impNonAwd (by decide),
      ruleWrite_not_mem st o ("stepper_x.endstop_pin") impToolboardDefaults (by decide),
      ruleWrite_not_mem st o ("stepper_x.endstop_pin") impCorexyAwd (by decide),
      ruleWrite_not_mem st o ("stepper_x.endstop_pin") impHybridAwd (by decide),
      ruleWrite_not_mem st o ("stepper_x.endstop_pin") impTapZeroOffsets (by decide),
      ruleWrite_not_mem st o ("stepper_x.endstop_pin") impBeaconContact (by decide),
      ruleWrite_not_mem st o ("stepper_x.endstop_pin") impCartographerTouch (by decide),
      ruleWrite_not_mem st o ("stepper_x.endstop_pin") impBltouchHoming (by decide),
      ruleWrite_not_mem st o ("stepper_x.endstop_pin") impTapHoming (by decide),
      ruleWrite_not_mem st o ("stepper_x.endstop_pin") impZ2Tilt (by decide),
      ruleWrite_not_mem st o ("stepper_x.endstop_pin") impZ3Tilt (by decide),
      ruleWrite_not_mem st o ("stepper_x.endstop_pin") impZ4Qgl (by decide),
      ruleWrite_not_mem st o ("stepper_x.endstop_pin") impSensorlessY (by decide),
      ruleWrite_not_mem st o ("stepper_x.endstop_pin") impSafeZHome (by decide)]
  simp only [oElse_none_left, oElse_none_right]

/-- The built-in table's effective write at `stepper_y.endstop_pin`. -/
theorem rulesWrite_sye (st : WizardState) (o : List String) :
    rulesWrite st o ("stepper_y.endstop_pin") (sortByPriority IMPLICATIONS)
      = ruleWrite st o ("stepper_y.endstop_pin") impSensorlessY := by
  rw [sortByPriority_IMPLICATIONS]
  simp only [rulesWrite]
  rw [ruleWrite_not_mem st o ("stepper_y.endstop_pin") impNonAwd (by decide),
      ruleWrite_not_mem st o ("stepper_y.endstop_pin") impToolboardDefaults (by decide),
      ruleWrite_not_mem st o ("stepper_y.endstop_pin") impCorexyAwd (by decide),
      ruleWrite_not_mem st o ("stepper_y.endstop_pin") impHybridAwd (by decide),
      ruleWrite_not_mem st o ("stepper_y.endstop_pin") impTapZeroOffsets (by decide),
      ruleWrite_not_mem st o ("stepper_y.endstop_pin") impBeaconContact (by decide),
      ruleWrite_not_mem st o ("stepper_y.endstop_pin") impCartographerTouch (by decide),
      ruleWrite_not_mem st o ("stepper_y.endstop_pin") impBltouchHoming (by decide),
      ruleWrite_not_mem st o ("stepper_y.endstop_pin") impTapHoming (by decide),
      ruleWrite_not_mem st o ("stepper_y.endstop_pin") impZ2Tilt (by decide),
      ruleWrite_not_mem st o ("stepper_y.endstop_pin") impZ3Tilt (by decide),
      ruleWrite_not_mem st o ("stepper_y.endstop_pin") impZ4Qgl (by decide),
      ruleWrite_not_mem st o ("stepper_y.endstop_pin") impSensorlessX (by decide),
      ruleWrite_not_mem st o ("stepper_y.endstop_pin") impSafeZHome (by decide)]
  simp only [oElse_none_left, oElse_none_right]

/-- The diff entry a guarded single effective writer leaves lets the
written value read back `===`-equal: either the write was skipped because
the snapshot already `===`-held it, or the write landed. -/
theorem write_or_keep (st : WizardState) (o : List String) (k : String) (v : JSVal)
    (g : Prop) [Decidable g]
    (hW : rulesWrite st o k (sortByPriority IMPLICATIONS)
        = if g ∧ ¬(strictEq (st k) v = true) then some v else none)
    (hvv : strictEq v v = true) (hg : g) :
    strictEq (mergeState st (applyImplications st o).changedValues k) v = true := by
  rw [mergeState_key, hW]
  by_cases hch : strictEq (st k) v = true
  · rw [if_neg (fun hc => hc.2 hch)]
    exact hch
  · rw [if_pos ⟨hg, hch⟩]
    exact hvv

/-- Skipping every write empties the pass (at the `applyImplications`
level). -/
theorem applyImplications_changed_of_skip (st : WizardState) (o : List String)
    (h : ∀ r ∈ sortByPriority IMPLICATIONS,
      evaluateCondition (some r.condition) st = true →
      ∀ kv ∈ r.setValues, (r.allowOverride && o.contains kv.1) = true
        ∨ strictEq (st kv.1) kv.2 = true) :
    (applyImplications st o).changedValues = [] := by
  unfold applyImplications applyImplicationsWith
  exact applyRules_changed_of_skip st o _ _ h

/-- The parsed form of `impCorexyAwd`'s condition. -/
theorem condE_corexy (s : WizardState) :
    evaluateCondition (some impCorexyAwd.condition) s
      = strictEq (s ("printer.kinematics")) (.str "corexy-awd") := rfl

/-- The parsed form of `impHybridAwd`'s condition. -/
theorem condE_hybrid (s : WizardState) :
    evaluateCondition (some impHybridAwd.condition) s
      = strictEq (s ("printer.kinematics")) (.str "hybrid_corexy") := rfl

/-- The parsed form of `impNonAwd`'s condition. -/
theorem condE_nonawd (s : WizardState) :
    evaluateCondition (some impNonAwd.condition) s
      = truthy (jsAnd
        (.bool (! strictEq (s ("printer.kinematics")) (.str "corexy-awd")))
        (.bool (! strictEq (s ("printer.kinematics")) (.str "hybrid_corexy")))) := rfl

/-- The parsed form of `impTapZeroOffsets`'s condition. -/
theorem condE_tap0 (s : WizardState) :
    evaluateCondition (some impTapZeroOffsets.condition) s
      = strictEq (s ("probe.probe_type")) (.str "tap") := rfl

/-- The parsed form of `impBeaconContact`'s condition. -/
theorem condE_beacon (s : WizardState) :
    evaluateCondition (some impBeaconContact.condition) s
      = truthy (jsAnd
        (.bool (strictEq (s ("probe.probe_type")) (.str "beacon")))
        (.bool (strictEq (s ("probe.homing_mode")) (.str "contact")))) := rfl

/-- The parsed form of `impCartographerTouch`'s condition. -/
theorem condE_carto (s : WizardState) :
    evaluateCondition (some impCartographerTouch.condition) s
      = truthy (jsAnd
        (.bool (strictEq (s ("probe.probe_type")) (.str "cartographer")))
        (.bool (strictEq (s ("probe.homing_mode")) (.str "touch")))) := rfl

/-- The parsed form of `impBltouchHoming`'s condition. -/
theorem condE_bltouch (s : WizardState) :
    evaluateCondition (some impBltouchHoming.condition) s
      = strictEq (s ("probe.probe_type")) (.str "bltouch") := rfl

/-- The parsed form of `impTapHoming`'s condition. -/
theorem condE_tapH (s : WizardState) :
    evaluateCondition (some impTapHoming.condition) s
      = strictEq (s ("probe.probe_type")) (.str "tap") := rfl

/-- The parsed form of `impZ2Tilt`'s condition. -/
theorem condE_z2 (s : WizardState) :
    evaluateCondition (some impZ2Tilt.condition) s
      = strictEq (s ("z_config.motor_count")) (.num ⟨2, 1⟩) := rfl

/-- The parsed form of `impZ3Tilt`'s condition. -/
theorem condE_z3 (s : WizardState) :
    evaluateCondition (some impZ3Tilt.condition) s
      = strictEq (s ("z_config.motor_count")) (.num ⟨3, 1⟩) := rfl

/-- The parsed form of `impZ4Qgl`'s condition. -/
theorem condE_z4 (s : WizardState) :
    evaluateCondition (some impZ4Qgl.condition) s
      = strictEq (s ("z_config.motor_count")) (.num ⟨4, 1⟩) := rfl

/-- The parsed form of `impToolboardDefaults`'s condition. -/
theorem condE_toolboard (s : WizardState) :
    evaluateCondition (some impToolboardDefaults.condition) s
      = strictEq (s ("mcu.toolboard.enabled")) (.bool true) := rfl

/-- The parsed form of `impSensorlessX`'s condition. -/
theorem condE_sensx (s : WizardState) :
    evaluateCondition (some impSensorlessX.condition) s
      = strictEq (s ("homing.x_endstop_type")) (.str "sensorless") := rfl

/-- The parsed form of `impSensorlessY`'s condition. -/
theorem condE_sensy (s : WizardState) :
    evaluateCondition (some impSensorlessY.condition) s
      = strictEq (s ("homing.y_endstop_type")) (.str "sensorless") := rfl

/-- The parsed form of `impSafeZHome`'s condition. -/
theorem condE_safez (s : WizardState) :
    evaluateCondition (some impSafeZHome.condition) s
      = truthy (jsAnd (s ("printer.bed_size_x")) (s ("printer.bed_size_y"))) := rfl

/-- C4: implication application is idempotent for the built-in rule
table — for every state whose number values are well-formed (positive
denominator, the class of values representing actual JavaScript numbers)
and every set of user overrides, re-running the resolver on the state
merged with the first run's diff changes nothing. -/
theorem claim_C4 (st : WizardState) (o : List String)
    (hwf : ∀ k : String, numWF (st k)) :
    (applyImplications (mergeState st (applyImplications st o).changedValues) o).changedValues
      = [] := by
  have hkin := mergeState_no_write st o ("printer.kinematics")
    (by rw [sortByPriority_IMPLICATIONS]; decide)
  have hpt := mergeState_no_write st o ("probe.probe_type")
    (by rw [sortByPriority_IMPLICATIONS]; decide)
  have hpm := mergeState_no_write st o ("probe.homing_mode")
    (by rw [sortByPriority_IMPLICATIONS]; decide)
  have hzc := mergeState_no_write st o ("z_config.motor_count")
    (by rw [sortByPriority_IMPLICATIONS]; decide)
  have htb := mergeState_no_write st o ("mcu.toolboard.enabled")
    (by rw [sortByPriority_IMPLICATIONS]; decide)
  have hhx := mergeState_no_write st o ("homing.x_endstop_type")
    (by rw [sortByPriority_IMPLICATIONS]; decide)
  have hhy := mergeState_no_write st o ("homing.y_endstop_type")
    (by rw [sortByPriority_IMPLICATIONS]; decide)
  apply applyImplications_changed_of_skip
  rw [sortByPriority_IMPLICATIONS]
  intro r hr
  simp only [List.mem_cons, List.not_mem_nil, or_false] at hr
  rcases hr with rfl|rfl|rfl|rfl|rfl|rfl|rfl|rfl|rfl|rfl|rfl|rfl|rfl|rfl|rfl
  · -- non_awd_disables_awd
    intro hc kv hkv
    rw [condE_nonawd, hkin] at hc
    rw [truthy_jsAnd_bools, Bool.and_eq_true] at hc
    obtain ⟨hA1, hB1⟩ := hc
    have hA0 : strictEq (st ("printer.kinematics")) (.str "corexy-awd") = false := by
      revert hA1
      cases strictEq (st ("printer.kinematics")) (.str "corexy-awd") <;> simp
    have hB0 : strictEq (st ("printer.kinematics")) (.str "hybrid_corexy") = false := by
      revert hB1
      cases strictEq (st ("printer.kinematics")) (.str "hybrid_corexy") <;> simp
    rw [show impNonAwd.setValues = [(("printer.awd_enabled"), JSVal.bool false)] from rfl] at hkv
    simp only [List.mem_cons, List.not_mem_nil, or_false] at hkv
    subst hkv
    right
    have hH : ruleWrite st o ("printer.awd_enabled") impHybridAwd = none := by
      unfold ruleWrite
      rw [condE_hybrid, hB0]
      rfl
    have hC : ruleWrite st o ("printer.awd_enabled") impCorexyAwd = none := by
      unfold ruleWrite
      rw [condE_corexy, hA0]
      rfl
    have hW : rulesWrite st o ("printer.awd_enabled") (sortByPriority IMPLICATIONS)
        = if ¬((impNonAwd.allowOverride && o.contains ("printer.awd_enabled")) = true)
            ∧ ¬(strictEq (st ("printer.awd_enabled")) (JSVal.bool false) = true)
          then some (JSVal.bool false) else none := by
      rw [rulesWrite_awd, hH, hC]
      simp only [oElse_none_left, oElse_none_right]
      unfold ruleWrite
      rw [condE_nonawd, hA0, hB0, show impNonAwd.setValues = [(("printer.awd_enabled"), JSVal.bool false)] from rfl,
        lastWrite_head impNonAwd st o ("printer.awd_enabled") (JSVal.bool false) [] (by decide)]
      rfl
    exact write_or_keep st o _ _ _ hW rfl (fun h => Bool.noConfusion h)
  · -- toolboard_default_extruder_location
    intro hc kv hkv
    rw [condE_toolboard, htb] at hc
    rw [show impToolboardDefaults.setValues = [(("extruder.motor_location"), JSVal.str "toolboard"),
           (("fans.part_cooling.location"), JSVal.str "toolboard"),
           (("fans.hotend.location"), JSVal.str "toolboard")] from rfl] at hkv
    simp only [List.mem_cons, List.not_mem_nil, or_false] at hkv
    rcases hkv with rfl | rfl | rfl
    · by_cases hov : o.contains ("extruder.motor_location") = true
      · exact Or.inl (by rw [hov]; rfl)
      · right
        have hW : rulesWrite st o ("extruder.motor_location") (sortByPriority IMPLICATIONS)
            = if ¬((impToolboardDefaults.allowOverride && o.contains ("extruder.motor_location")) = true)
                ∧ ¬(strictEq (st ("extruder.motor_location")) (JSVal.str "toolboard") = true)
              then some (JSVal.str "toolboard") else none := by
          rw [rulesWrite_eml]
          unfold ruleWrite
          rw [condE_toolboard, hc, show impToolboardDefaults.setValues = [(("extruder.motor_location"), JSVal.str "toolboard"),
           (("fans.part_cooling.location"), JSVal.str "toolboard"),
           (("fans.hotend.location"), JSVal.str "toolboard")] from rfl,
            lastWrite_head impToolboardDefaults st o ("extruder.motor_location") (JSVal.str "toolboard")
              [(("fans.part_cooling.location"), JSVal.str "toolboard"),
               (("fans.hotend.location"), JSVal.str "toolboard")] (by decide)]
          rfl
        exact write_or_keep st o _ _ _ hW rfl (fun h => hov h)
    · by_cases hov : o.contains ("fans.part_cooling.location") = true
      · exact Or.inl (by rw [hov]; rfl)
      · right
        have hW : rulesWrite st o ("fans.part_cooling.location") (sortByPriority IMPLICATIONS)
            = if ¬((impToolboardDefaults.allowOverride && o.contains ("fans.part_cooling.location")) = true)
                ∧ ¬(strictEq (st ("fans.part_cooling.location")) (JSVal.str "toolboard") = true)
              then some (JSVal.str "toolboard") else none := by
          rw [rulesWrite_fpc]
          unfold ruleWrite
          rw [condE_toolboard, hc, show impToolboardDefaults.setValues = [(("extruder.motor_location"), JSVal.str "toolboard"),
           (("fans.part_cooling.location"), JSVal.str "toolboard"),
           (("fans.hotend.location"), JSVal.str "toolboard")] from rfl,
            lastWrite_cons_skip impToolboardDefaults st o ("fans.part_cooling.location")
              ("extruder.motor_location") (JSVal.str "toolboard")
              [(("fans.part_cooling.location"), JSVal.str "toolboard"),
               (("fans.hotend.location"), JSVal.str "toolboard")] (by decide),
            lastWrite_head impToolboardDefaults st o ("fans.part_cooling.location") (JSVal.str "toolboard")
              [(("fans.hotend.location"), JSVal.str "toolboard")] (by decide)]
          rfl
        exact write_or_keep st o _ _ _ hW rfl (fun h => hov h)
    · by_cases hov : o.contains ("fans.hotend.location") = true
      · exact Or.inl (by rw [hov]; rfl)
      · right
        have hW : rulesWrite st o ("fans.hotend.location") (sortByPriority IMPLICATIONS)
            = if ¬((impToolboardDefaults.allowOverride && o.contains ("fans.hotend.location")) = true)
                ∧ ¬(strictEq (st ("fans.hotend.location")) (JSVal.str "toolboard") = true)
              then some (JSVal.str "toolboard") else none := by
          rw [rulesWrite_fhe]
          unfold ruleWrite
          rw [condE_toolboard, hc, show impToolboardDefaults.setValues = [(("extruder.motor_location"), JSVal.str "toolboard"),
           (("fans.part_cooling.location"), JSVal.str "toolboard"),
           (("fans.hotend.location"), JSVal.str "toolboard")] from rfl,
            lastWrite_cons_skip impToolboardDefaults st o ("fans.hotend.location")
              ("extruder.motor_location") (JSVal.str "toolboard")
              [(("fans.part_cooling.location"), JSVal.str "toolboard"),
               (("fans.hotend.location"), JSVal.str "toolboard")] (by decide),
            lastWrite_cons_skip impToolboardDefaults st o ("fans.hotend.location")
              ("fans.part_cooling.location") (JSVal.str "toolboard")
              [(("fans.hotend.location"), JSVal.str "toolboard")] (by decide),
            lastWrite_head impToolboardDefaults st o ("fans.hotend.location") (JSVal.str "toolboard")
              [] (by decide)]
          rfl
        exact write_or_keep st o _ _ _ hW rfl (fun h => hov h)
  · -- corexy_awd_enables_awd
    intro hc kv hkv
    rw [condE_corexy, hkin] at hc
    have hBf : strictEq (st ("printer.kinematics")) (.str "hybrid_corexy") = false :=
      strictEq_str_excl _ _ _ (by decide) hc
    rw [show impCorexyAwd.setValues = [(("printer.awd_enabled"), JSVal.bool true)] from rfl] at hkv
    simp only [List.mem_cons, List.not_mem_nil, or_false] at hkv
    subst hkv
    right
    have hH : ruleWrite st o ("printer.awd_enabled") impHybridAwd = none := by
      unfold ruleWrite
      rw [condE_hybrid, hBf]
      rfl
    have hN : ruleWrite st o ("printer.awd_enabled") impNonAwd = none := by
      unfold ruleWrite
      rw [condE_nonawd, hc]
      rfl
    have hW : rulesWrite st o ("printer.awd_enabled") (sortByPriority IMPLICATIONS)
        = if ¬((impCorexyAwd.allowOverride && o.contains ("printer.awd_enabled")) = true)
            ∧ ¬(strictEq (st ("printer.awd_enabled")) (JSVal.bool true) = true)
          then some (JSVal.bool true) else none := by
      rw [rulesWrite_awd, hH, hN]
      simp only [oElse_none_left, oElse_none_right]
      unfold ruleWrite
      rw [condE_corexy, hc, show impCorexyAwd.setValues = [(("printer.awd_enabled"), JSVal.bool true)] from rfl,
        lastWrite_head impCorexyAwd st o ("printer.awd_enabled") (JSVal.bool true) [] (by decide)]
      rfl
    exact write_or_keep st o _ _ _ hW rfl (fun h => Bool.noConfusion h)
  · -- hybrid_corexy_enables_awd
    intro hc kv hkv
    rw [condE_hybrid, hkin] at hc
    have hAf : strictEq (st ("printer.kinematics")) (.str "corexy-awd") = false :=
      strictEq_str_excl _ _ _ (by decide) hc
    rw [show impHybridAwd.setValues = [(("printer.awd_enabled"), JSVal.bool true)] from rfl] at hkv
    simp only [List.mem_cons, List.not_mem_nil, or_false] at hkv
    subst hkv
    right
    have hC : ruleWrite st o ("printer.awd_enabled") impCorexyAwd = none := by
      unfold ruleWrite
      rw [condE_corexy, hAf]
      rfl
    have hN : ruleWrite st o ("printer.awd_enabled") impNonAwd = none := by
      unfold ruleWrite
      rw [condE_nonawd, hAf, hc]
      rfl
    have hW : rulesWrite st o ("printer.awd_enabled") (sortByPriority IMPLICATIONS)
        = if ¬((impHybridAwd.allowOverride && o.contains ("printer.awd_enabled")) = true)
            ∧ ¬(strictEq (st ("printer.awd_enabled")) (JSVal.bool true) = true)
          then some (JSVal.bool true) else none := by
      rw [rulesWrite_awd, hC, hN]
      simp only [oElse_none_left, oElse_none_right]
      unfold ruleWrite
      rw [condE_hybrid, hc, show impHybridAwd.setValues = [(("printer.awd_enabled"), JSVal.bool true)] from rfl,
        lastWrite_head impHybridAwd st o ("printer.awd_enabled") (JSVal.bool true) [] (by decide)]
      rfl
    exact write_or_keep st o _ _ _ hW rfl (fun h => Bool.noConfusion h)
  · -- tap_zero_offsets
    intro hc kv hkv
    rw [condE_tap0, hpt] at hc
    rw [show impTapZeroOffsets.setValues = [(("probe.x_offset"), JSVal.num 0), (("probe.y_offset"), JSVal.num 0)] from rfl] at hkv
    simp only [List.mem_cons, List.not_mem_nil, or_false] at hkv
    rcases hkv with rfl | rfl
    · right
      have hW : rulesWrite st o ("probe.x_offset") (sortByPriority IMPLICATIONS)
          = if ¬((impTapZeroOffsets.allowOverride && o.contains ("probe.x_offset")) = true)
              ∧ ¬(strictEq (st ("probe.x_offset")) (JSVal.num 0) = true)
            then some (JSVal.num 0) else none := by
        rw [rulesWrite_xoff]
        unfold ruleWrite
        rw [condE_tap0, hc, show impTapZeroOffsets.setValues = [(("probe.x_offset"), JSVal.num 0), (("probe.y_offset"), JSVal.num 0)] from rfl,
          lastWrite_head impTapZeroOffsets st o ("probe.x_offset") (JSVal.num 0)
              [(("probe.y_offset"), JSVal.num 0)] (by decide)]
        rfl
      exact write_or_keep st o _ _ _ hW rfl (fun h => Bool.noConfusion h)
    · right
      have hW : rulesWrite st o ("probe.y_offset") (sortByPriority IMPLICATIONS)
          = if ¬((impTapZeroOffsets.allowOverride && o.contains ("probe.y_offset")) = true)
              ∧ ¬(strictEq (st ("probe.y_offset")) (JSVal.num 0) = true)
            then some (JSVal.num 0) else none := by
        rw [rulesWrite_yoff]
        unfold ruleWrite
        rw [condE_tap0, hc, show impTapZeroOffsets.setValues = [(("probe.x_offset"), JSVal.num 0), (("probe.y_offset"), JSVal.num 0)] from rfl,
          lastWrite_cons_skip impTapZeroOffsets st o ("probe.y_offset") ("probe.x_offset") (JSVal.num 0)
              [(("probe.y_offset"), JSVal.num 0)] (by decide),
            lastWrite_head impTapZeroOffsets st o ("probe.y_offset") (JSVal.num 0) [] (by decide)]
        rfl
      exact write_or_keep st o _ _ _ hW rfl (fun h => Bool.noConfusion h)
  · -- beacon_contact_homing
    intro hc kv hkv
    rw [condE_beacon, hpt, hpm] at hc
    rw [truthy_jsAnd_bools, Bool.and_eq_true] at hc
    obtain ⟨hb1, hb2⟩ := hc
    have hcf : strictEq (st ("probe.probe_type")) (.str "cartographer") = false :=
      strictEq_str_excl _ _ _ (by decide) hb1
    have hblf : strictEq (st ("probe.probe_type")) (.str "bltouch") = false :=
      strictEq_str_excl _ _ _ (by decide) hb1
    have htf : strictEq (st ("probe.probe_type")) (.str "tap") = false :=
      strictEq_str_excl _ _ _ (by decide) hb1
    rw [show impBeaconContact.setValues = [(("homing.homing_method"), JSVal.str "beacon_contact")] from rfl] at hkv
    simp only [List.mem_cons, List.not_mem_nil, or_false] at hkv
    subst hkv
    right
    have hCa : ruleWrite st o ("homing.homing_method") impCartographerTouch = none := by
      unfold ruleWrite
      rw [condE_carto, hcf]
      rfl
    have hBl : ruleWrite st o ("homing.homing_method") impBltouchHoming = none := by
      unfold ruleWrite
      rw [condE_bltouch, hblf]
      rfl
    have hTa : ruleWrite st o ("homing.homing_method") impTapHoming = none := by
      unfold ruleWrite
      rw [condE_tapH, htf]
      rfl
    have hW : rulesWrite st o ("homing.homing_method") (sortByPriority IMPLICATIONS)
        = if ¬((impBeaconContact.allowOverride && o.contains ("homing.homing_method")) = true)
            ∧ ¬(strictEq (st ("homing.homing_method")) (JSVal.str "beacon_contact") = true)
          then some (JSVal.str "beacon_contact") else none := by
      rw [rulesWrite_hm, hCa, hBl, hTa]
      simp only [oElse_none_left, oElse_none_right]
      unfold ruleWrite
      rw [condE_beacon, hb1, hb2, show impBeaconContact.setValues = [(("homing.homing_method"), JSVal.str "beacon_contact")] from rfl,
        lastWrite_head impBeaconContact st o ("homing.homing_method") (JSVal.str "beacon_contact") [] (by decide)]
      rfl
    exact write_or_keep st o _ _ _ hW rfl (fun h => Bool.noConfusion h)
  · -- cartographer_touch_homing
    intro hc kv hkv
    rw [condE_carto, hpt, hpm] at hc
    rw [truthy_jsAnd_bools, Bool.and_eq_true] at hc
    obtain ⟨hb1, hb2⟩ := hc
    have hbef : strictEq (st ("probe.probe_type")) (.str "beacon") = false :=
      strictEq_str_excl _ _ _ (by decide) hb1
    have hblf : strictEq (st ("probe.probe_type")) (.str "bltouch") = false :=
      strictEq_str_excl _ _ _ (by decide) hb1
    have htf : strictEq (st ("probe.probe_type")) (.str "tap") = false :=
      strictEq_str_excl _ _ _ (by decide) hb1
    rw [show impCartographerTouch.setValues = [(("homing.homing_method"), JSVal.str "cartographer_touch")] from rfl] at hkv
    simp only [List.mem_cons, List.not_mem_nil, or_false] at hkv
    subst hkv
    right
    have hBe : ruleWrite st o ("homing.homing_method") impBeaconContact = none := by
      unfold ruleWrite
      rw [condE_beacon, hbef]
      rfl
    have hBl : ruleWrite st o ("homing.homing_method") impBltouchHoming = none := by
      unfold ruleWrite
      rw [condE_bltouch, hblf]
      rfl
    have hTa : ruleWrite st o ("homing.homing_method") impTapHoming = none := by
      unfold ruleWrite
      rw [condE_tapH, htf]
      rfl
    have hW : rulesWrite st o ("homing.homing_method") (sortByPriority IMPLICATIONS)
        = if ¬((impCartographerTouch.allowOverride && o.contains ("homing.homing_method")) = true)
            ∧ ¬(strictEq (st ("homing.homing_method")) (JSVal.str "cartographer_touch") = true)
          then some (JSVal.str "cartographer_touch") else none := by
      rw [rulesWrite_hm, hBe, hBl, hTa]
      simp only [oElse_none_left, oElse_none_right]
      unfold ruleWrite
      rw [condE_carto, hb1, hb2, show impCartographerTouch.setValues = [(("homing.homing_method"), JSVal.str "cartographer_touch")] from rfl,
        lastWrite_head impCartographerTouch st o ("homing.homing_method") (JSVal.str "cartographer_touch") [] (by decide)]
      rfl
    exact write_or_keep st o _ _ _ hW rfl (fun h => Bool.noConfusion h)
  · -- bltouch_homing
    intro hc kv hkv
    rw [condE_bltouch, hpt] at hc
    have hbef : strictEq (st ("probe.probe_type")) (.str "beacon") = false :=
      strictEq_str_excl _ _ _ (by decide) hc
    have hcf : strictEq (st ("probe.probe_type")) (.str "cartographer") = false :=
      strictEq_str_excl _ _ _ (by decide) hc
    have htf : strictEq (st ("probe.probe_type")) (.str "tap") = false :=
      strictEq_str_excl _ _ _ (by decide) hc
    rw [show impBltouchHoming.setValues = [(("homing.homing_method"), JSVal.str "probe")] from rfl] at hkv
    simp only [List.mem_cons, List.not_mem_nil, or_false] at hkv
    subst hkv
    right
    have hBe : ruleWrite st o ("homing.homing_method") impBeaconContact = none := by
      unfold ruleWrite
      rw [condE_beacon, hbef]
      rfl
    have hCa : ruleWrite st o ("homing.homing_method") impCartographerTouch = none := by
      unfold ruleWrite
      rw [condE_carto, hcf]
      rfl
    have hTa : ruleWrite st o ("homing.homing_method") impTapHoming = none := by
      unfold ruleWrite
      rw [condE_tapH, htf]
      rfl
    have hW : rulesWrite st o ("homing.homing_method") (sortByPriority IMPLICATIONS)
        = if ¬((impBltouchHoming.allowOverride && o.contains ("homing.homing_method")) = true)
            ∧ ¬(strictEq (st ("homing.homing_method")) (JSVal.str "probe") = true)
          then some (JSVal.str "probe") else none := by
      rw [rulesWrite_hm, hBe, hCa, hTa]
      simp only [oElse_none_left, oElse_none_right]
      unfold ruleWrite
      rw [condE_bltouch, hc, show impBltouchHoming.setValues = [(("homing.homing_method"), JSVal.str "probe")] from rfl,
        lastWrite_head impBltouchHoming st o ("homing.homing_method") (JSVal.str "probe") [] (by decide)]
      rfl
    exact write_or_keep st o _ _ _ hW rfl (fun h => Bool.noConfusion h)
  · -- tap_homing
    intro hc kv hkv
    rw [condE_tapH, hpt] at hc
    have hbef : strictEq (st ("probe.probe_type")) (.str "beacon") = false :=
      strictEq_str_excl _ _ _ (by decide) hc
    have hcf : strictEq (st ("probe.probe_type")) (.str "cartographer") = false :=
      strictEq_str_excl _ _ _ (by decide) hc
    have hblf : strictEq (st ("probe.probe_type")) (.str "bltouch") = false :=
      strictEq_str_excl _ _ _ (by decide) hc
    rw [show impTapHoming.setValues = [(("homing.homing_method"), JSVal.str "probe")] from rfl] at hkv
    simp only [List.mem_cons, List.not_mem_nil, or_false] at hkv
    subst hkv
    right
    have hBe : ruleWrite st o ("homing.homing_method") impBeaconContact = none := by
      unfold ruleWrite
      rw [condE_beacon, hbef]
      rfl
    have hCa : ruleWrite st o ("homing.homing_method") impCartographerTouch = none := by
      unfold ruleWrite
      rw [condE_carto, hcf]
      rfl
    have hBl : ruleWrite st o ("homing.homing_method") impBltouchHoming = none := by
      unfold ruleWrite
      rw [condE_bltouch, hblf]
      rfl
    have hW : rulesWrite st o ("homing.homing_method") (sortByPriority IMPLICATIONS)
        = if ¬((impTapHoming.allowOverride && o.contains ("homing.homing_method")) = true)
            ∧ ¬(strictEq (st ("homing.homing_method")) (JSVal.str "probe") = true)
          then some (JSVal.str "probe") else none := by
      rw [rulesWrite_hm, hBe, hCa, hBl]
      simp only [oElse_none_left, oElse_none_right]
      unfold ruleWrite
      rw [condE_tapH, hc, show impTapHoming.setValues = [(("homing.homing_method"), JSVal.str "probe")] from rfl,
        lastWrite_head impTapHoming st o ("homing.homing_method") (JSVal.str "probe") [] (by decide)]
      rfl
    exact write_or_keep st o _ _ _ hW rfl (fun h => Bool.noConfusion h)
  · -- z_motor_count_2_enables_z_tilt
    intro hc kv hkv
    rw [condE_z2, hzc] at hc
    have hZ3f : strictEq (st ("z_config.motor_count")) (.num ⟨3, 1⟩) = false :=
      strictEq_num_excl (st ("z_config.motor_count")) (hwf _) _ ⟨3, 1⟩ (by decide) hc
    have hZ4f : strictEq (st ("z_config.motor_count")) (.num ⟨4, 1⟩) = false :=
      strictEq_num_excl (st ("z_config.motor_count")) (hwf _) _ ⟨4, 1⟩ (by decide) hc
    rw [show impZ2Tilt.setValues = [(("leveling.type"), JSVal.str "z_tilt")] from rfl] at hkv
    simp only [List.mem_cons, List.not_mem_nil, or_false] at hkv
    subst hkv
    by_cases hov : o.contains ("leveling.type") = true
    · exact Or.inl (by rw [hov]; rfl)
    · right
      have hZ3 : ruleWrite st o ("leveling.type") impZ3Tilt = none := by
        unfold ruleWrite
        rw [condE_z3, hZ3f]
        rfl
      have hZ4 : ruleWrite st o ("leveling.type") impZ4Qgl = none := by
        unfold ruleWrite
        rw [condE_z4, hZ4f]
        rfl
      have hW : rulesWrite st o ("leveling.type") (sortByPriority IMPLICATIONS)
          = if ¬((impZ2Tilt.allowOverride && o.contains ("leveling.type")) = true)
              ∧ ¬(strictEq (st ("leveling.type")) (JSVal.str "z_tilt") = true)
            then some (JSVal.str "z_tilt") else none := by
        rw [rulesWrite_lt, hZ3, hZ4]
        simp only [oElse_none_left, oElse_none_right]
        unfold ruleWrite
        rw [condE_z2, hc, show impZ2Tilt.setValues = [(("leveling.type"), JSVal.str "z_tilt")] from rfl,
          lastWrite_head impZ2Tilt st o ("leveling.type") (JSVal.str "z_tilt") [] (by decide)]
        rfl
      exact write_or_keep st o _ _ _ hW rfl (fun h => hov h)
  · -- z_motor_count_3_enables_z_tilt
    intro hc kv hkv
    rw [condE_z3, hzc] at hc
    have hZ2f : strictEq (st ("z_config.motor_count")) (.num ⟨2, 1⟩) = false :=
      strictEq_num_excl (st ("z_config.motor_count")) (hwf _) _ ⟨2, 1⟩ (by decide) hc
    have hZ4f : strictEq (st ("z_config.motor_count")) (.num ⟨4, 1⟩) = false :=
      strictEq_num_excl (st ("z_config.motor_count")) (hwf _) _ ⟨4, 1⟩ (by decide) hc
    rw [show impZ3Tilt.setValues = [(("leveling.type"), JSVal.str "z_tilt")] from rfl] at hkv
    simp only [List.mem_cons, List.not_mem_nil, or_false] at hkv
    subst hkv
    by_cases hov : o.contains ("leveling.type") = true
    · exact Or.inl (by rw [hov]; rfl)
    · right
      have hZ2 : ruleWrite st o ("leveling.type") impZ2Tilt = none := by
        unfold ruleWrite
        rw [condE_z2, hZ2f]
        rfl
      have hZ4 : ruleWrite st o ("leveling.type") impZ4Qgl = none := by
        unfold ruleWrite
        rw [condE_z4, hZ4f]
        rfl
      have hW : rulesWrite st o ("leveling.type") (sortByPriority IMPLICATIONS)
          = if ¬((impZ3Tilt.allowOverride && o.contains ("leveling.type")) = true)
              ∧ ¬(strictEq (st ("leveling.type")) (JSVal.str "z_tilt") = true)
            then some (JSVal.str "z_tilt") else none := by
        rw [rulesWrite_lt, hZ2, hZ4]
        simp only [oElse_none_left, oElse_none_right]
        unfold ruleWrite
        rw [condE_z3, hc, show impZ3Tilt.setValues = [(("leveling.type"), JSVal.str "z_tilt")] from rfl,
          lastWrite_head impZ3Tilt st o ("leveling.type") (JSVal.str "z_tilt") [] (by decide)]
        rfl
      exact write_or_keep st o _ _ _ hW rfl (fun h => hov h)
  · -- z_motor_count_4_enables_qgl
    intro hc kv hkv
    rw [condE_z4, hzc] at hc
    have hZ2f : strictEq (st ("z_config.motor_count")) (.num ⟨2, 1⟩) = false :=
      strictEq_num_excl (st ("z_config.motor_count")) (hwf _) _ ⟨2, 1⟩ (by decide) hc
    have hZ3f : strictEq (st ("z_config.motor_count")) (.num ⟨3, 1⟩) = false :=
      strictEq_num_excl (st ("z_config.motor_count")) (hwf _) _ ⟨3, 1⟩ (by decide) hc
    rw [show impZ4Qgl.setValues = [(("leveling.type"), JSVal.str "quad_gantry_level")] from rfl] at hkv
    simp only [List.mem_cons, List.not_mem_nil, or_false] at hkv
    subst hkv
    by_cases hov : o.contains ("leveling.type") = true
    · exact Or.inl (by rw [hov]; rfl)
    · right
      have hZ2 : ruleWrite st o ("leveling.type") impZ2Tilt = none := by
        unfold ruleWrite
        rw [condE_z2, hZ2f]
        rfl
      have hZ3 : ruleWrite st o ("leveling.type") impZ3Tilt = none := by
        unfold ruleWrite
        rw [condE_z3, hZ3f]
        rfl
      have hW : rulesWrite st o ("leveling.type") (sortByPriority IMPLICATIONS)
          = if ¬((impZ4Qgl.allowOverride && o.contains ("leveling.type")) = true)
              ∧ ¬(strictEq (st ("leveling.type")) (JSVal.str "quad_gantry_level") = true)
            then some (JSVal.str "quad_gantry_level") else none := by
        rw [rulesWrite_lt, hZ2, hZ3]
        simp only [oElse_none_left, oElse_none_right]
        unfold ruleWrite
        rw [condE_z4, hc, show impZ4Qgl.setValues = [(("leveling.type"), JSVal.str "quad_gantry_level")] from rfl,
          lastWrite_head impZ4Qgl st o ("leveling.type") (JSVal.str "quad_gantry_level") [] (by decide)]
        rfl
      exact write_or_keep st o _ _ _ hW rfl (fun h => hov h)
  · -- sensorless_x_uses_diag
    intro hc kv hkv
    rw [condE_sensx, hhx] at hc
    rw [show impSensorlessX.setValues = [(("stepper_x.endstop_pin"), JSVal.str "virtual_endstop")] from rfl] at hkv
    simp only [List.mem_cons, List.not_mem_nil, or_false] at hkv
    subst hkv
    right
    have hW : rulesWrite st o ("stepper_x.endstop_pin") (sortByPriority IMPLICATIONS)
        = if ¬((impSensorlessX.allowOverride && o.contains ("stepper_x.endstop_pin")) = true)
            ∧ ¬(strictEq (st ("stepper_x.endstop_pin")) (JSVal.str "virtual_endstop") = true)
          then some (JSVal.str "virtual_endstop") else none := by
      rw [rulesWrite_sxe]
      unfold ruleWrite
      rw [condE_sensx, hc, show impSensorlessX.setValues = [(("stepper_x.endstop_pin"), JSVal.str "virtual_endstop")] from rfl,
        lastWrite_head impSensorlessX st o ("stepper_x.endstop_pin") (JSVal.str "virtual_endstop") [] (by decide)]
      rfl
    exact write_or_keep st o _ _ _ hW rfl (fun h => Bool.noConfusion h)
  · -- sensorless_y_uses_diag
    intro hc kv hkv
    rw [condE_sensy, hhy] at hc
    rw [show impSensorlessY.setValues = [(("stepper_y.endstop_pin"), JSVal.str "virtual_endstop")] from rfl] at hkv
    simp only [List.mem_cons, List.not_mem_nil, or_false] at hkv
    subst hkv
    right
    have hW : rulesWrite st o ("stepper_y.endstop_pin") (sortByPriority IMPLICATIONS)
        = if ¬((impSensorlessY.allowOverride && o.contains ("stepper_y.endstop_pin")) = true)
            ∧ ¬(strictEq (st ("stepper_y.endstop_pin")) (JSVal.str "virtual_endstop") = true)
          then some (JSVal.str "virtual_endstop") else none := by
      rw [rulesWrite_sye]
      unfold ruleWrite
      rw [condE_sensy, hc, show impSensorlessY.setValues = [(("stepper_y.endstop_pin"), JSVal.str "virtual_endstop")] from rfl,
        lastWrite_head impSensorlessY st o ("stepper_y.endstop_pin") (JSVal.str "virtual_endstop") [] (by decide)]
      rfl
    exact write_or_keep st o _ _ _ hW rfl (fun h => Bool.noConfusion h)
  · -- safe_z_home_center: no values to set
    intro hc kv hkv
    exact absurd hkv (List.not_mem_nil kv)

set_option maxRecDepth 8000 in
/-- C4's theorem applied at a state on which the first pass makes five
changes (QGL leveling, AWD off, three toolboard locations): the second
pass changes nothing. -/
theorem claim_C4_witness :
    (∀ k : String, numWF (c4State k))
    ∧ (applyImplications c4State []).changedValues.length = 5
    ∧ (applyImplications (mergeState c4State
        (applyImplications c4State []).changedValues) []).changedValues = [] := by
  have hwf : ∀ k : String, numWF (c4State k) := by
    intro k
    unfold c4State
    split
    · exact Nat.one_pos
    · split
      · exact trivial
      · exact trivial
  exact ⟨hwf, rfl, claim_C4 c4State [] hwf⟩

end Gschpoozi
